import Mathlib

/-!
Verification of the authentication core of the task-manager backend
(src/backend/auth/index.py and src/backend/tasks/index.py).

Modelling conventions:
- Python strings and byte strings are modelled as List Nat (Unicode code
  points for str, byte values for bytes).  All data handled by the auth
  core is ASCII, where the two coincide via UTF-8.
- Machine words inside SHA-256 are Nat reduced mod 2^32.
- Wall-clock time (datetime.utcnow().timestamp(), NOW()) is an epoch-seconds
  parameter of type Nat threaded explicitly.
- Randomness (secrets.token_hex, secrets.token_urlsafe) is modelled by
  passing the drawn value as an explicit parameter.
- Fallible Python code (exceptions caught by the handlers) is modelled with
  Option: none corresponds to an exception / rejection.
-/

/-- Code points of a Lean string literal, used to write ASCII constants. -/
def str (s : String) : List Nat := s.data.map Char.toNat

/-- 32-bit truncation. -/
def w32 (n : Nat) : Nat := n % 4294967296

/-- Right rotation of a 32-bit word. -/
def rotr (k x : Nat) : Nat := w32 ((x >>> k) ||| (x <<< (32 - k)))

/-- SHA-256 round constants. -/
def shaK : List Nat :=
  [1116352408, 1899447441, 3049323471, 3921009573, 961987163, 1508970993,
   2453635748, 2870763221, 3624381080, 310598401, 607225278, 1426881987,
   1925078388, 2162078206, 2614888103, 3248222580, 3835390401, 4022224774,
   264347078, 604807628, 770255983, 1249150122, 1555081692, 1996064986,
   2554220882, 2821834349, 2952996808, 3210313671, 3336571891, 3584528711,
   113926993, 338241895, 666307205, 773529912, 1294757372, 1396182291,
   1695183700, 1986661051, 2177026350, 2456956037, 2730485921, 2820302411,
   3259730800, 3345764771, 3516065817, 3600352804, 4094571909, 275423344,
   430227734, 506948616, 659060556, 883997877, 958139571, 1322822218,
   1537002063, 1747873779, 1955562222, 2024104815, 2227730452, 2361852424,
   2428436474, 2756734187, 3204031479, 3329325298]

/-- SHA-256 initial hash state. -/
def shaH0 : List Nat :=
  [1779033703, 3144134277, 1013904242, 2773480762, 1359893119, 2600822924, 528734635, 1541459225]

/-- Little helpers for the SHA-256 message schedule. -/
def shaS0 (x : Nat) : Nat := w32 ((rotr 7 x) ^^^ (rotr 18 x) ^^^ (x >>> 3))

def shaS1 (x : Nat) : Nat := w32 ((rotr 17 x) ^^^ (rotr 19 x) ^^^ (x >>> 10))

def shaE0 (x : Nat) : Nat := w32 ((rotr 2 x) ^^^ (rotr 13 x) ^^^ (rotr 22 x))

def shaE1 (x : Nat) : Nat := w32 ((rotr 6 x) ^^^ (rotr 11 x) ^^^ (rotr 25 x))

/-- SHA-256 padding: append 0x80, zeros, and the 64-bit big-endian bit length. -/
def shaPad (msg : List Nat) : List Nat :=
  let l := msg.length
  let zeros := (119 - l % 64) % 64
  msg ++ [0x80] ++ List.replicate zeros 0 ++
    (List.range 8).map (fun i => ((8 * l) >>> (8 * (7 - i))) % 256)

/-- Split a padded message (whose length is a multiple of 64) into 64-byte blocks. -/
def shaBlocks (padded : List Nat) : List (List Nat) :=
  (List.range (padded.length / 64)).map (fun i => ((padded.drop (64 * i)).take 64))

/-- Big-endian 32-bit words of a 64-byte block. -/
def shaWords (block : List Nat) : List Nat :=
  (List.range 16).map (fun i =>
    block.getD (4 * i) 0 * 16777216 + block.getD (4 * i + 1) 0 * 65536 +
    block.getD (4 * i + 2) 0 * 256 + block.getD (4 * i + 3) 0)

/-- Extend 16 words to the 64-word message schedule. -/
def shaSchedule (ws : List Nat) : List Nat :=
  (List.range 48).foldl
    (fun acc _ =>
      acc ++ [w32 (shaS1 (acc.getD (acc.length - 2) 0) + acc.getD (acc.length - 7) 0 +
                   shaS0 (acc.getD (acc.length - 15) 0) + acc.getD (acc.length - 16) 0)])
    ws

/-- One round of the SHA-256 compression function. -/
def shaRound (st : List Nat) (kw : Nat × Nat) : List Nat :=
  match st with
  | [a, b, c, d, e, f, g, h] =>
    let t1 := w32 (h + shaE1 e + ((e &&& f) ^^^ ((4294967295 - e) &&& g)) + kw.1 + kw.2)
    let t2 := w32 (shaE0 a + ((a &&& b) ^^^ (a &&& c) ^^^ (b &&& c)))
    [w32 (t1 + t2), a, b, c, w32 (d + t1), e, f, g]
  | other => other

/-- Process one block: compress and add into the running state. -/
def shaCompress (state : List Nat) (block : List Nat) : List Nat :=
  let ws := shaSchedule (shaWords block)
  let fin := (shaK.zip ws).foldl shaRound state
  (state.zip fin).map (fun p => w32 (p.1 + p.2))

/-- SHA-256 of a byte list, as a 32-byte list (hashlib.sha256(...).digest()). -/
def sha256 (msg : List Nat) : List Nat :=
  let final := (shaBlocks (shaPad msg)).foldl shaCompress shaH0
  final.flatMap (fun wv => [wv / 16777216 % 256, wv / 65536 % 256, wv / 256 % 256, wv % 256])

/-! ### Base64 (Python base64 module, standard and URL-safe alphabets) -/

/-- The standard base64 alphabet as character codes. -/
def b64StdAlpha : List Nat :=
  str "ABCDEFGHIJKLMNOPQRSTUVWXYZabcdefghijklmnopqrstuvwxyz0123456789+/"

/-- The URL-safe base64 alphabet as character codes. -/
def b64UrlAlpha : List Nat :=
  str "ABCDEFGHIJKLMNOPQRSTUVWXYZabcdefghijklmnopqrstuvwxyz0123456789-_"

/-- Six-bit groups of a byte list (final group of 2 or 3 sextets when the
length is not a multiple of 3). -/
def b64Sextets : List Nat → List Nat
  | [] => []
  | [b1] => [b1 / 4, b1 % 4 * 16]
  | [b1, b2] => [b1 / 4, b1 % 4 * 16 + b2 / 16, b2 % 16 * 4]
  | b1 :: b2 :: b3 :: rest =>
    b1 / 4 :: (b1 % 4 * 16 + b2 / 16) :: (b2 % 16 * 4 + b3 / 64) :: b3 % 64 :: b64Sextets rest

/-- base64.b64encode with the given alphabet, including '=' padding. -/
def b64encode (alpha : List Nat) (bs : List Nat) : List Nat :=
  (b64Sextets bs).map (fun s => alpha.getD s 0) ++ List.replicate ((3 - bs.length % 3) % 3) 61

/-- Python str.rstrip applied to one character (used as .rstrip of the pad). -/
def rstripChar (c : Nat) (s : List Nat) : List Nat :=
  (s.reverse.dropWhile (fun x => x == c)).reverse

/-- Index of a character in an alphabet. -/
def idxOf (alpha : List Nat) (c : Nat) : Option Nat :=
  match alpha with
  | [] => none
  | a :: rest => if a == c then some 0 else (idxOf rest c).map (fun i => i + 1)

/-- Bytes from a list of sextets; fails when the count is 1 more than a
multiple of 4 (binascii raises in that case). -/
def b64UnSextets : List Nat → Option (List Nat)
  | [] => some []
  | [_] => none
  | [s1, s2] => some [s1 * 4 + s2 / 16]
  | [s1, s2, s3] => some [s1 * 4 + s2 / 16, s2 % 16 * 16 + s3 / 4]
  | s1 :: s2 :: s3 :: s4 :: rest =>
    (b64UnSextets rest).map
      (fun tail => (s1 * 4 + s2 / 16) :: (s2 % 16 * 16 + s3 / 4) :: (s3 % 4 * 64 + s4) :: tail)

/-- base64.b64decode with validate=False: characters outside the alphabet and
the pad are discarded, data stops at the first pad character. -/
def b64decodeLoose (alpha : List Nat) (s : List Nat) : Option (List Nat) :=
  let cleaned := s.filter (fun c => (idxOf alpha c).isSome || c == 61)
  let data := cleaned.takeWhile (fun c => c != 61)
  b64UnSextets (data.map (fun c => (idxOf alpha c).getD 0))

/-- base64.urlsafe_b64decode: translate the URL-safe characters to the
standard ones, then decode with the standard alphabet. -/
def urlsafeB64decode (s : List Nat) : Option (List Nat) :=
  b64decodeLoose b64StdAlpha
    (s.map (fun c => if c = 45 then 43 else if c = 95 then 47 else c))

/-! ### UTF-8 (str.encode / bytes decoding done by json.loads) -/

/-- UTF-8 bytes of one code point. -/
def utf8Char (cp : Nat) : List Nat :=
  if cp < 128 then [cp]
  else if cp < 2048 then [192 + cp / 64, 128 + cp % 64]
  else if cp < 65536 then [224 + cp / 4096, 128 + cp / 64 % 64, 128 + cp % 64]
  else if cp < 1114112 then
    [240 + cp / 262144, 128 + cp / 4096 % 64, 128 + cp / 64 % 64, 128 + cp % 64]
  else []

/-- str.encode('utf-8'). -/
def utf8Encode (s : List Nat) : List Nat := s.flatMap utf8Char

/-- A UTF-8 continuation byte. -/
def utf8Cont (b : Nat) : Bool := decide (128 ≤ b ∧ b < 192)

/-- Admissibility of a three-byte sequence (no overlongs, no surrogates). -/
def utf8Ok3 (b1 b2 : Nat) : Bool :=
  (b1 != 224 || decide (160 ≤ b2)) && (b1 != 237 || decide (b2 < 160))

/-- Admissibility of a four-byte sequence (no overlongs, max U+10FFFF). -/
def utf8Ok4 (b1 b2 : Nat) : Bool :=
  (b1 != 240 || decide (144 ≤ b2)) && (b1 != 244 || decide (b2 < 144))

/-- Decode one UTF-8 sequence starting with byte b1: the code point and the
remaining bytes, or none on a malformed sequence. -/
def utf8Step (b1 : Nat) (rest : List Nat) : Option (Nat × List Nat) :=
  if b1 < 128 then some (b1, rest)
  else if b1 < 194 then none
  else if b1 < 224 then
    match rest with
    | b2 :: rest2 =>
      if utf8Cont b2 then some ((b1 - 192) * 64 + (b2 - 128), rest2) else none
    | [] => none
  else if b1 < 240 then
    match rest with
    | b2 :: b3 :: rest2 =>
      if utf8Cont b2 && utf8Cont b3 && utf8Ok3 b1 b2 then
        some ((b1 - 224) * 4096 + (b2 - 128) * 64 + (b3 - 128), rest2)
      else none
    | _ => none
  else if b1 < 245 then
    match rest with
    | b2 :: b3 :: b4 :: rest2 =>
      if utf8Cont b2 && utf8Cont b3 && utf8Cont b4 && utf8Ok4 b1 b2 then
        some ((b1 - 240) * 262144 + (b2 - 128) * 4096 + (b3 - 128) * 64 + (b4 - 128), rest2)
      else none
    | _ => none
  else none

/-- Iterate utf8Step; the fuel only makes the recursion structural, and one
unit per input byte always suffices since every step consumes a byte. -/
def utf8DecodeAux : Nat → List Nat → Option (List Nat)
  | _, [] => some []
  | 0, _ :: _ => none
  | fuel + 1, b1 :: rest =>
    match utf8Step b1 rest with
    | none => none
    | some (cp, rest2) => (utf8DecodeAux fuel rest2).map (fun t => cp :: t)

/-- Strict UTF-8 decoding of a byte list (the decoding json.loads applies to
a bytes argument); none models UnicodeDecodeError. -/
def utf8Decode (bs : List Nat) : Option (List Nat) := utf8DecodeAux bs.length bs

/-! ### JSON (the fragment of json.dumps / json.loads the handlers exercise).
Numeric literals are modelled as integers: every number the code serialises
is an int, and a fraction or exponent in input is rejected rather than
parsed as a float (floats are outside the model). -/

inductive JVal where
  | jnull : JVal
  | jbool : Bool → JVal
  | jnum : Int → JVal
  | jstr : List Nat → JVal
  | jarr : List JVal → JVal
  | jobj : List (List Nat × JVal) → JVal

/-- JSON whitespace. -/
def jIsWs (c : Nat) : Bool := c == 32 || c == 9 || c == 10 || c == 13

def skipWs (s : List Nat) : List Nat := s.dropWhile jIsWs

/-- Decimal digit test. -/
def jDigit (c : Nat) : Bool := decide (48 ≤ c ∧ c ≤ 57)

/-- Value of a simple escape character. -/
def jEsc (e : Nat) : Option Nat :=
  if e = 34 then some 34 else if e = 92 then some 92 else if e = 47 then some 47
  else if e = 98 then some 8 else if e = 102 then some 12 else if e = 110 then some 10
  else if e = 114 then some 13 else if e = 116 then some 9 else none

/-- Value of a hexadecimal digit. -/
def hexVal (c : Nat) : Option Nat :=
  if 48 ≤ c ∧ c ≤ 57 then some (c - 48)
  else if 97 ≤ c ∧ c ≤ 102 then some (c - 87)
  else if 65 ≤ c ∧ c ≤ 70 then some (c - 55)
  else none

/-- Body of a JSON string after the opening quote: returns the decoded
contents and the remainder after the closing quote. -/
def jParseStr : List Nat → Option (List Nat × List Nat)
  | [] => none
  | c :: rest =>
    if c = 34 then some ([], rest)
    else if c = 92 then
      match rest with
      | [] => none
      | e :: rest2 =>
        if e = 117 then
          match rest2 with
          | h1 :: h2 :: h3 :: h4 :: rest3 =>
            match hexVal h1, hexVal h2, hexVal h3, hexVal h4 with
            | some v1, some v2, some v3, some v4 =>
              (jParseStr rest3).map
                (fun p => ((v1 * 4096 + v2 * 256 + v3 * 16 + v4) :: p.1, p.2))
            | _, _, _, _ => none
          | _ => none
        else
          match jEsc e with
          | some ch => (jParseStr rest2).map (fun p => (ch :: p.1, p.2))
          | none => none
    else if c < 32 then none
    else (jParseStr rest).map (fun p => (c :: p.1, p.2))

def parseNatAcc (a : Nat) (ds : List Nat) : Nat := ds.foldl (fun x c => x * 10 + (c - 48)) a

/-- Unsigned part of a JSON number (integer literals only). -/
def jParseNumCore (t : List Nat) : Option (Int × List Nat) :=
  let ds := t.takeWhile jDigit
  let rest := t.dropWhile jDigit
  if ds.isEmpty then none
  else if 1 < ds.length ∧ ds.headD 0 = 48 then none
  else
    match rest with
    | r :: _ => if r = 46 ∨ r = 101 ∨ r = 69 then none else some ((parseNatAcc 0 ds : Nat), rest)
    | [] => some ((parseNatAcc 0 ds : Nat), [])

def jParseNum (s : List Nat) : Option (Int × List Nat) :=
  match s with
  | [] => none
  | c :: rest =>
    if c = 45 then (jParseNumCore rest).map (fun p => (-p.1, p.2))
    else jParseNumCore s

/-- Python dict insertion: a repeated key replaces the value in place,
otherwise the pair is appended. -/
def jInsert (fields : List (List Nat × JVal)) (k : List Nat) (v : JVal) :
    List (List Nat × JVal) :=
  if fields.any (fun f => f.1 == k) then fields.map (fun f => if f.1 == k then (k, v) else f)
  else fields ++ [(k, v)]

/-- Keyword literal completion (the rue / alse / ull tails of true, false,
null). -/
def jLit (w : List Nat) (v : JVal) (s : List Nat) : Option (JVal × List Nat) :=
  if s.take w.length = w then some (v, s.drop w.length) else none

mutual

/-- Recursive-descent JSON value parser.  The fuel argument only makes the
recursion structural; jsonLoads supplies fuel exceeding the input length,
which no parse can exhaust since every decrement consumes input. -/
def jParseVal : Nat → List Nat → Option (JVal × List Nat)
  | 0, _ => none
  | fuel + 1, s =>
    let s1 := skipWs s
    let c := s1.headD 0
    let rest := s1.tail
    if s1 = [] then none
    else if c = 34 then (jParseStr rest).map (fun p => (JVal.jstr p.1, p.2))
    else if c = 123 then
      if (skipWs rest).headD 0 = 125 then some (JVal.jobj [], (skipWs rest).tail)
      else jParseMembers fuel rest []
    else if c = 91 then
      if (skipWs rest).headD 0 = 93 then some (JVal.jarr [], (skipWs rest).tail)
      else jParseItems fuel rest []
    else if c = 116 then jLit (str "rue") (JVal.jbool true) rest
    else if c = 102 then jLit (str "alse") (JVal.jbool false) rest
    else if c = 110 then jLit (str "ull") JVal.jnull rest
    else (jParseNum s1).map (fun p => (JVal.jnum p.1, p.2))

/-- Members of an object, positioned before a key. -/
def jParseMembers : Nat → List Nat → List (List Nat × JVal) → Option (JVal × List Nat)
  | 0, _, _ => none
  | fuel + 1, s, acc =>
    let s1 := skipWs s
    if s1.headD 0 = 34 then
      (jParseStr s1.tail).bind (fun kr =>
        let r1 := skipWs kr.2
        if r1.headD 0 = 58 then
          (jParseVal fuel r1.tail).bind (fun vr =>
            let r4 := skipWs vr.2
            if r4.headD 0 = 44 then jParseMembers fuel r4.tail (jInsert acc kr.1 vr.1)
            else if r4.headD 0 = 125 then some (JVal.jobj (jInsert acc kr.1 vr.1), r4.tail)
            else none)
        else none)
    else none

/-- Items of an array, positioned before a value. -/
def jParseItems : Nat → List Nat → List JVal → Option (JVal × List Nat)
  | 0, _, _ => none
  | fuel + 1, s, acc =>
    (jParseVal fuel s).bind (fun vr =>
      let r1 := skipWs vr.2
      if r1.headD 0 = 44 then jParseItems fuel r1.tail (acc ++ [vr.1])
      else if r1.headD 0 = 93 then some (JVal.jarr (acc ++ [vr.1]), r1.tail)
      else none)

end

/-- json.loads on a str. -/
def jsonLoads (s : List Nat) : Option JVal :=
  match jParseVal (s.length + 1) s with
  | some (v, rest) => if (skipWs rest).isEmpty then some v else none
  | none => none

/-- json.loads on bytes: strict UTF-8 decoding first. -/
def jsonLoadsBytes (bs : List Nat) : Option JVal := (utf8Decode bs).bind jsonLoads

/-- dict.get with a default. -/
def jGetD (fields : List (List Nat × JVal)) (k : List Nat) (d : JVal) : JVal :=
  match fields.find? (fun f => f.1 == k) with
  | some f => f.2
  | none => d

/-! ### json.dumps for the dictionaries the handlers serialise. -/

def hexDigit (d : Nat) : Nat := if d < 10 then 48 + d else 87 + d

def hex4 (n : Nat) : List Nat :=
  [hexDigit (n / 4096 % 16), hexDigit (n / 256 % 16), hexDigit (n / 16 % 16), hexDigit (n % 16)]

/-- json.dumps escaping of one character (ensure_ascii=True). -/
def jEscChar (c : Nat) : List Nat :=
  if c = 34 then [92, 34]
  else if c = 92 then [92, 92]
  else if c = 8 then [92, 98] else if c = 12 then [92, 102] else if c = 10 then [92, 110]
  else if c = 13 then [92, 114] else if c = 9 then [92, 116]
  else if c < 32 ∨ 127 ≤ c then
    if c < 65536 then [92, 117] ++ hex4 c
    else [92, 117] ++ hex4 (55296 + (c - 65536) / 1024) ++ [92, 117] ++ hex4 (56320 + (c - 65536) % 1024)
  else [c]

def jEscStr (s : List Nat) : List Nat := s.flatMap jEscChar

/-- Decimal digits of a Nat (fuel keeps the recursion structural so that the
kernel can evaluate it; n + 1 steps always suffice). -/
def natStrAux : Nat → Nat → List Nat
  | 0, _ => []
  | fuel + 1, n => if n < 10 then [48 + n] else natStrAux fuel (n / 10) ++ [48 + n % 10]

def natStr (n : Nat) : List Nat := natStrAux (n + 1) n

/-! ### Python str.split -/

/-- Python str.split(sep) for a one-character separator: empty pieces are
kept, and splitting the empty string yields one empty piece. -/
def splitOn (sep : Nat) : List Nat → List (List Nat)
  | [] => [[]]
  | c :: rest =>
    if c = sep then [] :: splitOn sep rest
    else
      match splitOn sep rest with
      | h :: t => (c :: h) :: t
      | [] => [[c]]

/-! ### hashlib.pbkdf2_hmac('sha256', password, salt, 100000) -/

/-- HMAC-SHA256. -/
def hmacSha256 (key msg : List Nat) : List Nat :=
  let k0 := if 64 < key.length then sha256 key else key
  let kp := k0 ++ List.replicate (64 - k0.length) 0
  sha256 (kp.map (fun b => b ^^^ 92) ++ sha256 (kp.map (fun b => b ^^^ 54) ++ msg))

/-- Iterate the PBKDF2 round, xor-accumulating each U value. -/
def pbkdf2Go (pw : List Nat) : Nat → List Nat → List Nat → List Nat
  | 0, _, acc => acc
  | i + 1, u, acc =>
    let u2 := hmacSha256 pw u
    pbkdf2Go pw i u2 (acc.zipWith (fun a b => a ^^^ b) u2)

/-- PBKDF2-HMAC-SHA256 with the default derived-key length (one 32-byte
block, so only block index 1 is produced). -/
def pbkdf2HmacSha256 (pw salt : List Nat) (iters : Nat) : List Nat :=
  let u1 := hmacSha256 pw (salt ++ [0, 0, 0, 1])
  pbkdf2Go pw (iters - 1) u1 u1

/-! ### The Credential Hasher (auth/index.py lines 27-38) -/

/-- hash_password: the salt drawn by secrets.token_hex(16) is passed
explicitly; the encoding is salt, a dollar, and base64 of the derived key. -/
def hash_password (salt password : List Nat) : List Nat :=
  salt ++ [36] ++
    b64encode b64StdAlpha (pbkdf2HmacSha256 (utf8Encode password) (utf8Encode salt) 100000)

/-- verify_password: split on the dollar, fail unless exactly two parts,
re-derive with the stored salt and compare encodings. -/
def verify_password (password hash_str : List Nat) : Bool :=
  match splitOn 36 hash_str with
  | [salt, stored_hash] =>
    b64encode b64StdAlpha (pbkdf2HmacSha256 (utf8Encode password) (utf8Encode salt) 100000)
      == stored_hash
  | _ => false

/-! ### The Token Codec (auth/index.py lines 40-52, tasks/index.py lines 23-45) -/

/-- json.dumps of the fixed JWT header dict. -/
def headerJson : List Nat := str "\x7b\"alg\": \"HS256\", \"typ\": \"JWT\"\x7d"

/-- json.dumps of the payload dict built by create_jwt. -/
def dumpsPayload (uid : Nat) (email : List Nat) (exp : Nat) : List Nat :=
  str "\x7b\"user_id\": " ++ natStr uid ++ str ", \"email\": \"" ++ jEscStr email ++
    str "\", \"exp\": " ++ natStr exp ++ str "\x7d"

/-- base64.urlsafe_b64encode(..).decode().rstrip of the pad. -/
def b64uStrip (bs : List Nat) : List Nat := rstripChar 61 (b64encode b64UrlAlpha bs)

/-- create_jwt: issue time and the JWT_SECRET string are explicit parameters;
exp is the epoch second now + 60 * expires_minutes. -/
def create_jwt (user_id : Nat) (email : List Nat) (expires_minutes : Nat)
    (now : Nat) (secret : List Nat) : List Nat :=
  let header := b64uStrip (utf8Encode headerJson)
  let payload := b64uStrip (utf8Encode (dumpsPayload user_id email (now + 60 * expires_minutes)))
  let signature := b64uStrip (sha256 (utf8Encode (header ++ [46] ++ payload ++ secret)))
  header ++ [46] ++ payload ++ [46] ++ signature

/-- Numeric view Python applies when comparing the exp claim with a float:
ints and bools compare as numbers, anything else raises TypeError. -/
def jNumVal : JVal → Option Int
  | JVal.jnum n => some n
  | JVal.jbool b => some (if b then 1 else 0)
  | _ => none

/-- verify_jwt from tasks/index.py: split into three dot-separated parts,
recompute the signature, decode the payload with two pad characters added,
parse it as JSON, and reject unless the exp claim is at least the current
time.  none models every caught exception. -/
def verify_jwt (token : List Nat) (secret : List Nat) (now : Nat) : Option JVal :=
  match splitOn 46 token with
  | [header, payload, signature] =>
    let expected := b64uStrip (sha256 (utf8Encode (header ++ [46] ++ payload ++ secret)))
    if signature = expected then
      match urlsafeB64decode (payload ++ [61, 61]) with
      | none => none
      | some bytes =>
        match jsonLoadsBytes bytes with
        | some (JVal.jobj fields) =>
          match jNumVal (jGetD fields (str "exp") (JVal.jnum 0)) with
          | some e => if e < (now : Int) then none else some (JVal.jobj fields)
          | none => none
        | _ => none
    else none
  | _ => none

/-! ### validate_email (auth/index.py lines 57-59) -/

def isLocalChar (c : Nat) : Bool :=
  decide ((48 ≤ c ∧ c ≤ 57) ∨ (65 ≤ c ∧ c ≤ 90) ∨ (97 ≤ c ∧ c ≤ 122) ∨
          c = 46 ∨ c = 95 ∨ c = 37 ∨ c = 43 ∨ c = 45)

def isDomChar (c : Nat) : Bool :=
  decide ((48 ≤ c ∧ c ≤ 57) ∨ (65 ≤ c ∧ c ≤ 90) ∨ (97 ≤ c ∧ c ≤ 122) ∨ c = 46 ∨ c = 45)

def isAlphaChar (c : Nat) : Bool := decide ((65 ≤ c ∧ c ≤ 90) ∨ (97 ≤ c ∧ c ≤ 122))

/-- The anchored regex matches iff the text decomposes as local, an at sign,
a domain, a dot, and a final alphabetic run of length at least two; the
trailing anchor also accepts one final newline. -/
def validate_email (email : List Nat) : Bool :=
  let e := if email.getLast? == some 10 then email.dropLast else email
  match splitOn 64 e with
  | [loc, rest] =>
    !loc.isEmpty && loc.all isLocalChar &&
      (List.range rest.length).any (fun i =>
        1 ≤ i && rest.getD i 0 == 46 && (rest.take i).all isDomChar &&
        2 ≤ rest.length - (i + 1) && (rest.drop (i + 1)).all isAlphaChar)
  | _ => false

/-! ### Persistent state and the auth handler (auth/index.py lines 66-262).
The HTTP method check, CORS preflight, and the json.loads of the request
body are transport plumbing and are modelled away: a request is the decoded
body fields, each defaulting to the empty string as with body_data.get.
Every non-OPTIONS response carries the same constant header pair, so a
response is modelled as its status code and body text. -/

structure UserRow where
  id : Nat
  email : List Nat
  password_hash : Option (List Nat)
  full_name : List Nat
deriving DecidableEq

structure TokenRow where
  user_id : Nat
  token : List Nat
  expires_at : Nat
  revoked : Bool
deriving DecidableEq

/-- The two relations the auth core touches; nextId models the id sequence
behind INSERT ... RETURNING id. -/
structure DB where
  nextId : Nat
  users : List UserRow
  refresh_tokens : List TokenRow
deriving DecidableEq

structure Resp where
  statusCode : Nat
  body : List Nat
deriving DecidableEq

/-- Environment of one request: current time, the values the two secrets
generators draw, the signing secret, and the feature flag. -/
structure Env where
  now : Nat
  salt : List Nat
  freshTok : List Nat
  secret : List Nat
  googleEnabled : Bool

/-- Decoded request body; absent fields are empty strings. -/
structure Req where
  action : List Nat
  email : List Nat
  password : List Nat
  fullName : List Nat
  refreshToken : List Nat
  googleToken : List Nat

def isSpaceChar (c : Nat) : Bool := c == 32 || c == 9 || c == 10 || c == 13 || c == 11 || c == 12

/-- str.strip(). -/
def pyStrip (s : List Nat) : List Nat :=
  ((s.dropWhile isSpaceChar).reverse.dropWhile isSpaceChar).reverse

/-- str.lower() on the ASCII range. -/
def pyLower (s : List Nat) : List Nat :=
  s.map (fun c => if 65 ≤ c ∧ c ≤ 90 then c + 32 else c)

/-- json.dumps of an error dict. -/
def errBody (msg : List Nat) : List Nat := str "\x7b\"error\": \"" ++ jEscStr msg ++ str "\"\x7d"

/-- json.dumps of the register and login success body. -/
def userTokensBody (uid : Nat) (email fullName access refresh : List Nat) : List Nat :=
  str "\x7b\"user\": \x7b\"id\": " ++ natStr uid ++ str ", \"email\": \"" ++ jEscStr email ++
    str "\", \"fullName\": \"" ++ jEscStr fullName ++ str "\"\x7d, \"accessToken\": \"" ++
    jEscStr access ++ str "\", \"refreshToken\": \"" ++ jEscStr refresh ++ str "\"\x7d"

/-- json.dumps of the refresh success body. -/
def tokenPairBody (access refresh : List Nat) : List Nat :=
  str "\x7b\"accessToken\": \"" ++ jEscStr access ++ str "\", \"refreshToken\": \"" ++
    jEscStr refresh ++ str "\"\x7d"

/-- Thirty days in seconds (timedelta(days=30)). -/
def thirtyDays : Nat := 2592000

/-- The register branch (lines 100-158). -/
def registerFlow (env : Env) (req : Req) (db : DB) : Resp × DB :=
  let email := pyLower (pyStrip req.email)
  if !validate_email email then
    (⟨400, errBody (str "Invalid email format")⟩, db)
  else if req.password.length < 6 then
    (⟨400, errBody (str "Password must be at least 6 characters")⟩, db)
  else if (db.users.find? (fun u => u.email == email)).isSome then
    (⟨409, errBody (str "Email already registered")⟩, db)
  else
    let uid := db.nextId
    let user : UserRow := ⟨uid, email, some (hash_password env.salt req.password), req.fullName⟩
    let access := create_jwt uid email 60 env.now env.secret
    let db2 : DB :=
      { nextId := uid + 1
        users := db.users ++ [user]
        refresh_tokens := db.refresh_tokens ++ [⟨uid, env.freshTok, env.now + thirtyDays, false⟩] }
    (⟨201, userTokensBody uid email req.fullName access env.freshTok⟩, db2)

/-- Truthiness of the fetched password hash: None and the empty string are
both falsy in the guard not user['password_hash']. -/
def phFalsy : Option (List Nat) → Bool
  | none => true
  | some l => l.isEmpty

/-- The login branch (lines 160-200). -/
def loginFlow (env : Env) (req : Req) (db : DB) : Resp × DB :=
  let email := pyLower (pyStrip req.email)
  match db.users.find? (fun u => u.email == email) with
  | none => (⟨401, errBody (str "Invalid email or password")⟩, db)
  | some user =>
    if phFalsy user.password_hash then
      (⟨401, errBody (str "Invalid email or password")⟩, db)
    else if verify_password req.password (user.password_hash.getD []) then
      let access := create_jwt user.id user.email 60 env.now env.secret
      let db1 : DB :=
        { db with refresh_tokens :=
            db.refresh_tokens ++ [⟨user.id, env.freshTok, env.now + thirtyDays, false⟩] }
      (⟨200, userTokensBody user.id user.email user.full_name access env.freshTok⟩, db1)
    else
      (⟨401, errBody (str "Invalid email or password")⟩, db)

/-- The SELECT ... JOIN of the refresh branch: first live token row with the
requested token whose owning user exists. -/
def lookupRefresh (db : DB) (tok : List Nat) (now : Nat) : Option (TokenRow × UserRow) :=
  db.refresh_tokens.findSome? (fun r =>
    if r.token == tok && !r.revoked && decide (now < r.expires_at) then
      (db.users.find? (fun u => u.id == r.user_id)).map (fun u => (r, u))
    else none)

/-- The refresh branch (lines 211-246): on success the UPDATE revoking every
row holding the old token and the INSERT of the successor row happen in one
transaction, modelled as a single state change. -/
def refreshFlow (env : Env) (req : Req) (db : DB) : Resp × DB :=
  match lookupRefresh db req.refreshToken env.now with
  | none => (⟨401, errBody (str "Invalid or expired refresh token")⟩, db)
  | some (r, u) =>
    let access := create_jwt r.user_id u.email 60 env.now env.secret
    let db1 : DB :=
      { db with refresh_tokens :=
          (db.refresh_tokens.map (fun row =>
            if row.token == req.refreshToken then { row with revoked := true } else row)) ++
          [⟨r.user_id, env.freshTok, env.now + thirtyDays, false⟩] }
    (⟨200, tokenPairBody access env.freshTok⟩, db1)

/-- The action dispatcher (lines 86-255); connOk false models a failed
get_db_connection, which returns 500 before any action is examined. -/
def authHandler (connOk : Bool) (env : Env) (req : Req) (db : DB) : Resp × DB :=
  if !connOk then (⟨500, errBody (str "Database connection failed")⟩, db)
  else if req.action == str "register" then registerFlow env req db
  else if req.action == str "login" then loginFlow env req db
  else if req.action == str "google_login" && env.googleEnabled then
    (⟨501, errBody (str "Google OAuth not implemented yet")⟩, db)
  else if req.action == str "refresh" then refreshFlow env req db
  else (⟨400, errBody (str "Invalid action or Google OAuth disabled")⟩, db)

/-! ### Generic list lemmas used by the round-trip proofs -/

theorem dropWhile_all_false {p : Nat → Bool} {l : List Nat}
    (h : ∀ x ∈ l, p x = false) : l.dropWhile p = l := by
  induction l with
  | nil => rfl
  | cons a t ih =>
    rw [List.dropWhile_cons]
    rw [h a (by simp)]
    simp

theorem takeWhile_all_append {p : Nat → Bool} {xs t : List Nat} {y : Nat}
    (hx : ∀ x ∈ xs, p x = true) (hy : p y = false) :
    (xs ++ y :: t).takeWhile p = xs := by
  induction xs with
  | nil => simp [List.takeWhile_cons, hy]
  | cons a s ih =>
    have ha := hx a (by simp)
    simp only [List.cons_append, List.takeWhile_cons, ha]
    simp only [if_true]
    rw [ih (fun x hm => hx x (by simp [hm]))]

theorem dropWhile_all_append {p : Nat → Bool} {xs t : List Nat} {y : Nat}
    (hx : ∀ x ∈ xs, p x = true) (hy : p y = false) :
    (xs ++ y :: t).dropWhile p = y :: t := by
  induction xs with
  | nil => simp [List.dropWhile_cons, hy]
  | cons a s ih =>
    have ha := hx a (by simp)
    simp only [List.cons_append, List.dropWhile_cons, ha]
    simp only [if_true]
    exact ih (fun x hm => hx x (by simp [hm]))

theorem filter_all_true {p : Nat → Bool} {l : List Nat}
    (h : ∀ x ∈ l, p x = true) : l.filter p = l := by
  induction l with
  | nil => rfl
  | cons a t ih =>
    rw [List.filter_cons, h a (by simp)]
    simp only [if_true]
    rw [ih (fun x hm => h x (by simp [hm]))]

/-! ### Alphabet facts, settled by finite checks -/

theorem idxOf_std_enc : ∀ s, s < 64 → idxOf b64StdAlpha (b64StdAlpha.getD s 0) = some s := by decide

theorem idxOf_url_enc : ∀ s, s < 64 → idxOf b64UrlAlpha (b64UrlAlpha.getD s 0) = some s := by decide

theorem std_enc_ne_pad : ∀ s, s < 64 → b64StdAlpha.getD s 0 ≠ 61 := by decide

theorem url_enc_ne_pad : ∀ s, s < 64 → b64UrlAlpha.getD s 0 ≠ 61 := by decide

theorem url_enc_ne_dot : ∀ s, s < 64 → b64UrlAlpha.getD s 0 ≠ 46 := by decide

theorem std_enc_ne_dollar : ∀ s, s < 64 → b64StdAlpha.getD s 0 ≠ 36 := by decide

theorem url_translate_enc : ∀ s, s < 64 →
    (if b64UrlAlpha.getD s 0 = 45 then 43
     else if b64UrlAlpha.getD s 0 = 95 then 47
     else b64UrlAlpha.getD s 0) = b64StdAlpha.getD s 0 := by decide

theorem url_enc_ascii : ∀ s, s < 64 → b64UrlAlpha.getD s 0 < 127 ∧ 32 ≤ b64UrlAlpha.getD s 0 := by decide

/-! ### Sextet round trip -/

theorem b64Sextets_lt {bs : List Nat} (h : ∀ b ∈ bs, b < 256) :
    ∀ s ∈ b64Sextets bs, s < 64 := by
  induction bs using b64Sextets.induct with
  | case1 => intro s hs; simp [b64Sextets] at hs
  | case2 b1 =>
    intro s hs
    have h1 := h b1 (by simp)
    simp [b64Sextets] at hs
    rcases hs with hs | hs <;> omega
  | case3 b1 b2 =>
    intro s hs
    have h1 := h b1 (by simp)
    have h2 := h b2 (by simp)
    simp [b64Sextets] at hs
    rcases hs with hs | hs | hs <;> omega
  | case4 b1 b2 b3 rest ih =>
    intro s hs
    have h1 := h b1 (by simp)
    have h2 := h b2 (by simp)
    have h3 := h b3 (by simp)
    simp only [b64Sextets, List.mem_cons] at hs
    rcases hs with hs | hs | hs | hs | hs
    · omega
    · omega
    · omega
    · omega
    · exact ih (fun b hb => h b (by simp [hb])) s hs

theorem b64UnSextets_b64Sextets {bs : List Nat} (h : ∀ b ∈ bs, b < 256) :
    b64UnSextets (b64Sextets bs) = some bs := by
  induction bs using b64Sextets.induct with
  | case1 => rfl
  | case2 b1 =>
    have h1 := h b1 (by simp)
    simp [b64Sextets, b64UnSextets]
    omega
  | case3 b1 b2 =>
    have h1 := h b1 (by simp)
    have h2 := h b2 (by simp)
    simp [b64Sextets, b64UnSextets]
    constructor <;> omega
  | case4 b1 b2 b3 rest ih =>
    have h1 := h b1 (by simp)
    have h2 := h b2 (by simp)
    have h3 := h b3 (by simp)
    have ih2 := ih (fun b hb => h b (by simp [hb]))
    simp only [b64Sextets, b64UnSextets, ih2, Option.map]
    congr 1
    have e1 : b1 / 4 * 4 + (b1 % 4 * 16 + b2 / 16) / 16 = b1 := by omega
    have e2 : (b1 % 4 * 16 + b2 / 16) % 16 * 16 + (b2 % 16 * 4 + b3 / 64) / 4 = b2 := by omega
    have e3 : (b2 % 16 * 4 + b3 / 64) % 4 * 64 + b3 % 64 = b3 := by omega
    rw [e1, e2, e3]

/-! ### Stripping the pad and the full base64 round trip -/

theorem rstrip_append_replicate {c : Nat} {xs : List Nat} {k : Nat}
    (h : ∀ x ∈ xs, (x == c) = false) :
    rstripChar c (xs ++ List.replicate k c) = xs := by
  unfold rstripChar
  rw [List.reverse_append, List.reverse_replicate]
  have hrep : ∀ k, (List.replicate k c ++ xs.reverse).dropWhile (fun x => x == c) =
      xs.reverse.dropWhile (fun x => x == c) := by
    intro k
    induction k with
    | zero => simp
    | succ m ih =>
      rw [List.replicate_succ, List.cons_append, List.dropWhile_cons]
      simp [ih]
  rw [hrep]
  rw [dropWhile_all_false (fun x hx => h x (by simpa using hx))]
  exact List.reverse_reverse xs

theorem b64uStrip_eq {bs : List Nat} (h : ∀ b ∈ bs, b < 256) :
    b64uStrip bs = (b64Sextets bs).map (fun s => b64UrlAlpha.getD s 0) := by
  unfold b64uStrip b64encode
  apply rstrip_append_replicate
  intro x hx
  obtain ⟨s, hs, rfl⟩ := List.mem_map.mp hx
  have := url_enc_ne_pad s (b64Sextets_lt h s hs)
  simpa using this

theorem b64uStrip_chars {bs : List Nat} (h : ∀ b ∈ bs, b < 256) :
    ∀ x ∈ b64uStrip bs, ∃ s, s < 64 ∧ x = b64UrlAlpha.getD s 0 := by
  intro x hx
  rw [b64uStrip_eq h] at hx
  obtain ⟨s, hs, rfl⟩ := List.mem_map.mp hx
  exact ⟨s, b64Sextets_lt h s hs, rfl⟩

theorem b64uStrip_ne_dot {bs : List Nat} (h : ∀ b ∈ bs, b < 256) :
    ∀ x ∈ b64uStrip bs, x ≠ 46 := by
  intro x hx
  obtain ⟨s, hs, rfl⟩ := b64uStrip_chars h x hx
  exact url_enc_ne_dot s hs

theorem url_decode_strip {bs : List Nat} (h : ∀ b ∈ bs, b < 256) :
    urlsafeB64decode (b64uStrip bs ++ [61, 61]) = some bs := by
  rw [b64uStrip_eq h]
  unfold urlsafeB64decode
  have hmap : ((b64Sextets bs).map (fun s => b64UrlAlpha.getD s 0) ++ [61, 61]).map
      (fun c => if c = 45 then 43 else if c = 95 then 47 else c) =
      (b64Sextets bs).map (fun s => b64StdAlpha.getD s 0) ++ [61, 61] := by
    rw [List.map_append, List.map_map]
    congr 1
    apply List.map_congr_left
    intro s hs
    exact url_translate_enc s (b64Sextets_lt h s hs)
  rw [hmap]
  simp only [b64decodeLoose]
  have hfil : ((b64Sextets bs).map (fun s => b64StdAlpha.getD s 0) ++ [61, 61]).filter
      (fun c => (idxOf b64StdAlpha c).isSome || c == 61) =
      (b64Sextets bs).map (fun s => b64StdAlpha.getD s 0) ++ [61, 61] := by
    apply filter_all_true
    intro x hx
    rcases List.mem_append.mp hx with hx | hx
    · obtain ⟨s, hs, rfl⟩ := List.mem_map.mp hx
      rw [idxOf_std_enc s (b64Sextets_lt h s hs)]
      rfl
    · have hx61 : x = 61 := by simpa using hx
      subst hx61
      decide
  rw [hfil]
  have htw : ((b64Sextets bs).map (fun s => b64StdAlpha.getD s 0) ++ [61, 61]).takeWhile
      (fun c => c != 61) = (b64Sextets bs).map (fun s => b64StdAlpha.getD s 0) := by
    have : ((b64Sextets bs).map (fun s => b64StdAlpha.getD s 0) ++ 61 :: [61]).takeWhile
        (fun c => c != 61) = (b64Sextets bs).map (fun s => b64StdAlpha.getD s 0) := by
      apply takeWhile_all_append
      · intro x hx
        obtain ⟨s, hs, rfl⟩ := List.mem_map.mp hx
        have := std_enc_ne_pad s (b64Sextets_lt h s hs)
        simpa using this
      · simp
    simpa using this
  rw [htw, List.map_map]
  have hid : (b64Sextets bs).map ((fun c => (idxOf b64StdAlpha c).getD 0) ∘
      (fun s => b64StdAlpha.getD s 0)) = b64Sextets bs := by
    have : ∀ s ∈ b64Sextets bs, ((fun c => (idxOf b64StdAlpha c).getD 0) ∘
        (fun s => b64StdAlpha.getD s 0)) s = id s := by
      intro s hs
      have hidx := idxOf_std_enc s (b64Sextets_lt h s hs)
      simp only [Function.comp_apply, id_eq]
      rw [hidx]
      rfl
    rw [List.map_congr_left this, List.map_id]
  rw [hid]
  exact b64UnSextets_b64Sextets h

theorem b64uStrip_inj {a b : List Nat} (ha : ∀ x ∈ a, x < 256) (hb : ∀ x ∈ b, x < 256)
    (h : b64uStrip a = b64uStrip b) : a = b := by
  have h1 := url_decode_strip ha
  rw [h, url_decode_strip hb] at h1
  exact (Option.some_injective _ h1).symm

/-! ### splitOn lemmas -/

theorem splitOn_no_sep {sep : Nat} {s : List Nat} (h : ∀ c ∈ s, c ≠ sep) :
    splitOn sep s = [s] := by
  induction s with
  | nil => rfl
  | cons a t ih =>
    have ha := h a (by simp)
    simp only [splitOn, if_neg ha]
    rw [ih (fun c hc => h c (by simp [hc]))]

theorem splitOn_append_sep {sep : Nat} {a rest : List Nat} (h : ∀ c ∈ a, c ≠ sep) :
    splitOn sep (a ++ sep :: rest) = a :: splitOn sep rest := by
  induction a with
  | nil => simp [splitOn]
  | cons x t ih =>
    have hx := h x (by simp)
    simp only [List.cons_append, splitOn, if_neg hx, List.append_eq]
    rw [ih (fun c hc => h c (by simp [hc]))]

theorem splitOn_ne_nil {sep : Nat} (s : List Nat) : splitOn sep s ≠ [] := by
  induction s with
  | nil => simp [splitOn]
  | cons a t ih =>
    by_cases ha : a = sep
    · simp [splitOn, ha]
    · simp only [splitOn, if_neg ha]
      cases hsp : splitOn sep t with
      | nil => exact absurd hsp ih
      | cons h2 t2 => simp

theorem splitOn_length_of_mem {sep : Nat} {s : List Nat} (h : sep ∈ s) :
    2 ≤ (splitOn sep s).length := by
  induction s with
  | nil => simp at h
  | cons a t ih =>
    by_cases ha : a = sep
    · subst ha
      have heq : splitOn a (a :: t) = [] :: splitOn a t := by simp [splitOn]
      rw [heq]
      have := List.length_pos.mpr (@splitOn_ne_nil a t)
      simp only [List.length_cons]
      omega
    · have hmem : sep ∈ t := by
        rcases List.mem_cons.mp h with h1 | h1
        · exact absurd h1.symm ha
        · exact h1
      simp only [splitOn, if_neg ha]
      cases hsp : splitOn sep t with
      | nil => exact absurd hsp (splitOn_ne_nil t)
      | cons h2 t2 =>
        have := ih hmem
        rw [hsp] at this
        simp at this ⊢
        omega

/-! ### UTF-8 on the ASCII range -/

theorem utf8Encode_ascii {s : List Nat} (h : ∀ c ∈ s, c < 128) : utf8Encode s = s := by
  induction s with
  | nil => rfl
  | cons a t ih =>
    have ha := h a (by simp)
    simp only [utf8Encode, List.flatMap_cons]
    rw [utf8Char, if_pos ha]
    have := ih (fun c hc => h c (by simp [hc]))
    simp only [utf8Encode] at this
    rw [this]
    rfl

theorem utf8DecodeAux_ascii {fuel : Nat} {s : List Nat} (hf : s.length ≤ fuel)
    (h : ∀ c ∈ s, c < 128) : utf8DecodeAux fuel s = some s := by
  induction fuel generalizing s with
  | zero =>
    cases s with
    | nil => rfl
    | cons a t => simp at hf
  | succ f ih =>
    cases s with
    | nil => rfl
    | cons a t =>
      have ha := h a (by simp)
      have hstep : utf8Step a t = some (a, t) := by
        unfold utf8Step
        rw [if_pos ha]
      rw [utf8DecodeAux, hstep]
      dsimp only
      rw [ih (show t.length ≤ f by simp at hf; omega) (fun c hc => h c (by simp [hc]))]
      rfl

theorem utf8Decode_ascii {s : List Nat} (h : ∀ c ∈ s, c < 128) : utf8Decode s = some s :=
  utf8DecodeAux_ascii (Nat.le_refl _) h

theorem utf8Char_lt {cp : Nat} : ∀ b ∈ utf8Char cp, b < 256 := by
  intro b hb
  unfold utf8Char at hb
  by_cases h1 : cp < 128
  · rw [if_pos h1] at hb
    simp at hb
    omega
  · rw [if_neg h1] at hb
    by_cases h2 : cp < 2048
    · rw [if_pos h2] at hb
      simp at hb
      rcases hb with hb | hb <;> omega
    · rw [if_neg h2] at hb
      by_cases h3 : cp < 65536
      · rw [if_pos h3] at hb
        simp at hb
        rcases hb with hb | hb | hb <;> omega
      · rw [if_neg h3] at hb
        by_cases h4 : cp < 1114112
        · rw [if_pos h4] at hb
          simp at hb
          rcases hb with hb | hb | hb | hb <;> omega
        · rw [if_neg h4] at hb
          simp at hb

theorem utf8Encode_lt {s : List Nat} : ∀ b ∈ utf8Encode s, b < 256 := by
  intro b hb
  obtain ⟨c, _, hc⟩ := List.mem_flatMap.mp hb
  exact utf8Char_lt b hc

theorem sha256_lt {msg : List Nat} : ∀ b ∈ sha256 msg, b < 256 := by
  intro b hb
  unfold sha256 at hb
  obtain ⟨w, _, hw⟩ := List.mem_flatMap.mp hb
  simp at hw
  rcases hw with hw | hw | hw | hw <;> omega

/-! ### Decimal digits: natStr round trip -/

theorem natStrAux_congr : ∀ {f g n : Nat}, n < f → n < g → natStrAux f n = natStrAux g n := by
  intro f
  induction f with
  | zero => intro g n hf; omega
  | succ f2 ih =>
    intro g n hf hg
    cases g with
    | zero => omega
    | succ g2 =>
      by_cases h10 : n < 10
      · simp [natStrAux, h10]
      · simp only [natStrAux, if_neg h10]
        have hdiv : n / 10 < n := Nat.div_lt_self (by omega) (by omega)
        rw [ih (show n / 10 < f2 by omega) (show n / 10 < g2 by omega)]

theorem natStr_unfold (n : Nat) :
    natStr n = if n < 10 then [48 + n] else natStr (n / 10) ++ [48 + n % 10] := by
  show natStrAux (n + 1) n = _
  rw [natStrAux]
  by_cases h10 : n < 10
  · rw [if_pos h10, if_pos h10]
  · have hdiv : n / 10 < n := Nat.div_lt_self (by omega) (by omega)
    rw [if_neg h10, if_neg h10]
    have hcg : natStrAux n (n / 10) = natStrAux (n / 10 + 1) (n / 10) :=
      natStrAux_congr (by omega) (by omega)
    rw [hcg]
    rfl

theorem natStr_digits (n : Nat) : ∀ c ∈ natStr n, 48 ≤ c ∧ c ≤ 57 := by
  induction n using Nat.strong_induction_on with
  | _ n ih =>
    rw [natStr_unfold]
    by_cases h10 : n < 10
    · rw [if_pos h10]
      intro c hc
      simp at hc
      omega
    · rw [if_neg h10]
      intro c hc
      rcases List.mem_append.mp hc with hc | hc
      · exact ih (n / 10) (Nat.div_lt_self (by omega) (by omega)) c hc
      · simp at hc
        have := Nat.mod_lt n (show 0 < 10 by omega)
        omega

theorem natStr_ne_nil (n : Nat) : natStr n ≠ [] := by
  rw [natStr_unfold]
  by_cases h10 : n < 10
  · simp [h10]
  · simp [h10]

theorem natStr_headD_ne_48 (n : Nat) (hn : n ≠ 0) : (natStr n).headD 0 ≠ 48 := by
  induction n using Nat.strong_induction_on with
  | _ n ih =>
    rw [natStr_unfold]
    by_cases h10 : n < 10
    · rw [if_pos h10]
      simp
      omega
    · rw [if_neg h10]
      obtain ⟨h0, t0, heq⟩ := List.exists_cons_of_ne_nil (natStr_ne_nil (n / 10))
      rw [heq]
      simp only [List.cons_append, List.headD_cons]
      have hdiv : n / 10 < n := Nat.div_lt_self (by omega) (by omega)
      have := ih (n / 10) hdiv (by omega)
      rw [heq] at this
      simpa using this

theorem parseNatAcc_natStr (a n : Nat) :
    parseNatAcc a (natStr n) = a * 10 ^ (natStr n).length + n := by
  induction n using Nat.strong_induction_on generalizing a with
  | _ n ih =>
    rw [natStr_unfold]
    by_cases h10 : n < 10
    · rw [if_pos h10]
      simp only [parseNatAcc, List.foldl_cons, List.foldl_nil, List.length_cons,
        List.length_nil]
      omega
    · rw [if_neg h10]
      unfold parseNatAcc
      rw [List.foldl_append]
      have hdiv : n / 10 < n := Nat.div_lt_self (by omega) (by omega)
      have hrec := ih (n / 10) hdiv a
      unfold parseNatAcc at hrec
      rw [hrec]
      simp only [List.foldl_cons, List.foldl_nil, List.length_append, List.length_cons,
        List.length_nil]
      rw [pow_succ]
      set X := 10 ^ (natStr (n / 10)).length
      have hd : 48 + n % 10 - 48 = n % 10 := by omega
      rw [hd]
      have hmul : a * (X * 10) = a * X * 10 := by ring
      rw [hmul]
      omega

theorem natStr_jDigit (n : Nat) : ∀ c ∈ natStr n, jDigit c = true := by
  intro c hc
  have := natStr_digits n c hc
  simp [jDigit]
  omega

theorem jParseNumCore_natStr {n r : Nat} {rest : List Nat} (hr : jDigit r = false)
    (h46 : r ≠ 46) (h101 : r ≠ 101) (h69 : r ≠ 69) :
    jParseNumCore (natStr n ++ r :: rest) = some ((n : Int), r :: rest) := by
  unfold jParseNumCore
  rw [takeWhile_all_append (natStr_jDigit n) hr, dropWhile_all_append (natStr_jDigit n) hr]
  rw [if_neg (by simp [natStr_ne_nil n])]
  have hlead : ¬(1 < (natStr n).length ∧ (natStr n).headD 0 = 48) := by
    by_cases h10 : n < 10
    · have : natStr n = [48 + n] := by rw [natStr_unfold, if_pos h10]
      rw [this]
      simp
    · have := natStr_headD_ne_48 n (by omega)
      tauto
  rw [if_neg hlead]
  have hval : parseNatAcc 0 (natStr n) = n := by
    have := parseNatAcc_natStr 0 n
    simpa using this
  dsimp only
  rw [if_neg (show ¬(r = 46 ∨ r = 101 ∨ r = 69) by tauto)]
  rw [hval]

theorem jParseNum_natStr {n r : Nat} {rest : List Nat} (hr : jDigit r = false)
    (h46 : r ≠ 46) (h101 : r ≠ 101) (h69 : r ≠ 69) :
    jParseNum (natStr n ++ r :: rest) = some ((n : Int), r :: rest) := by
  obtain ⟨h0, t0, heq⟩ := List.exists_cons_of_ne_nil (natStr_ne_nil n)
  have hh : 48 ≤ h0 ∧ h0 ≤ 57 := by
    have := natStr_digits n h0 (by rw [heq]; simp)
    exact this
  rw [heq, List.cons_append, jParseNum]
  rw [if_neg (by omega)]
  rw [← List.cons_append, ← heq]
  exact jParseNumCore_natStr hr h46 h101 h69

/-! ### JSON strings: plain characters round-trip -/

theorem jEscChar_plain {c : Nat} (h32 : 32 ≤ c) (hlt : c < 127) (h34 : c ≠ 34)
    (h92 : c ≠ 92) : jEscChar c = [c] := by
  unfold jEscChar
  rw [if_neg h34, if_neg h92, if_neg (by omega), if_neg (by omega), if_neg (by omega),
    if_neg (by omega), if_neg (by omega), if_neg (by omega)]

/-- Characters that json.dumps copies verbatim and jParseStr reads verbatim. -/
def plainChar (c : Nat) : Prop := 32 ≤ c ∧ c < 127 ∧ c ≠ 34 ∧ c ≠ 92

instance plainChar.dec (c : Nat) : Decidable (plainChar c) :=
  decidable_of_iff (32 ≤ c ∧ c < 127 ∧ c ≠ 34 ∧ c ≠ 92) Iff.rfl

theorem jEscStr_plain {s : List Nat} (h : ∀ c ∈ s, plainChar c) : jEscStr s = s := by
  induction s with
  | nil => rfl
  | cons a t ih =>
    obtain ⟨h1, h2, h3, h4⟩ := h a (by simp)
    simp only [jEscStr, List.flatMap_cons]
    rw [jEscChar_plain h1 h2 h3 h4]
    have := ih (fun c hc => h c (by simp [hc]))
    simp only [jEscStr] at this
    rw [this]
    rfl

theorem jParseStr_plain {s rest : List Nat} (h : ∀ c ∈ s, plainChar c) :
    jParseStr (s ++ 34 :: rest) = some (s, rest) := by
  induction s with
  | nil =>
    simp only [List.nil_append]
    rw [jParseStr.eq_def]
    dsimp only
    rw [if_pos rfl]
  | cons a t ih =>
    obtain ⟨h1, h2, h3, h4⟩ := h a (by simp)
    rw [List.cons_append, jParseStr.eq_def]
    dsimp only
    rw [if_neg h3, if_neg h4, if_neg (by omega)]
    rw [ih (fun c hc => h c (by simp [hc]))]
    rfl

/-! ### Parsing the exact payload text create_jwt serialises -/

theorem skipWs_ws_cons {c : Nat} {x : List Nat} (h : jIsWs c = true) :
    skipWs (c :: x) = skipWs x := by
  simp [skipWs, List.dropWhile_cons, h]

theorem skipWs_cons {c : Nat} {x : List Nat} (h : jIsWs c = false) :
    skipWs (c :: x) = c :: x := by
  simp [skipWs, List.dropWhile_cons, h]

theorem jIsWs_digit {c : Nat} (h48 : 48 ≤ c) (h57 : c ≤ 57) : jIsWs c = false := by
  simp [jIsWs]
  omega

/-- The integer-value case of the payload trace: a space, the digits of n,
then a terminator that is not a digit, a dot, or an exponent letter. -/
theorem jParseVal_num (f : Nat) {n r : Nat} {rest : List Nat} (hr : jDigit r = false)
    (h46 : r ≠ 46) (h101 : r ≠ 101) (h69 : r ≠ 69) :
    jParseVal (f + 1) (32 :: (natStr n ++ r :: rest)) = some (JVal.jnum n, r :: rest) := by
  obtain ⟨h0, t0, heq⟩ := List.exists_cons_of_ne_nil (natStr_ne_nil n)
  have hd : 48 ≤ h0 ∧ h0 ≤ 57 := natStr_digits n h0 (by rw [heq]; simp)
  have hs1 : skipWs (32 :: (natStr n ++ r :: rest)) = h0 :: (t0 ++ r :: rest) := by
    rw [skipWs_ws_cons (by rfl), heq, List.cons_append]
    exact skipWs_cons (jIsWs_digit hd.1 hd.2)
  rw [jParseVal]
  simp only [hs1, List.headD_cons, List.tail_cons]
  rw [if_neg (by simp), if_neg (by omega), if_neg (by omega), if_neg (by omega),
    if_neg (by omega), if_neg (by omega), if_neg (by omega)]
  rw [← List.cons_append, ← heq, jParseNum_natStr hr h46 h101 h69]
  rfl

/-- The string-value case of the payload trace: a space, a quote, plain
characters, the closing quote. -/
theorem jParseVal_str (f : Nat) {s rest : List Nat} (h : ∀ c ∈ s, plainChar c) :
    jParseVal (f + 1) (32 :: 34 :: (s ++ 34 :: rest)) = some (JVal.jstr s, rest) := by
  have hs1 : skipWs (32 :: 34 :: (s ++ 34 :: rest)) = 34 :: (s ++ 34 :: rest) := by
    rw [skipWs_ws_cons (by rfl)]
    exact skipWs_cons (by rfl)
  rw [jParseVal]
  simp only [hs1, List.headD_cons, List.tail_cons]
  rw [if_neg (by simp), if_pos (by trivial), jParseStr_plain h]
  rfl

theorem members_exp (f : Nat) (acc : List (List Nat × JVal)) (exp : Nat) :
    jParseMembers (f + 2)
      (32 :: 34 :: (str "exp" ++ 34 :: 58 :: 32 :: (natStr exp ++ 125 :: []))) acc
      = some (JVal.jobj (jInsert acc (str "exp") (JVal.jnum exp)), []) := by
  have hs1 : skipWs (32 :: 34 :: (str "exp" ++ 34 :: 58 :: 32 :: (natStr exp ++ 125 :: []))) =
      34 :: (str "exp" ++ 34 :: 58 :: 32 :: (natStr exp ++ 125 :: [])) := by
    rw [skipWs_ws_cons (by rfl)]
    exact skipWs_cons (by rfl)
  rw [jParseMembers]
  simp only [hs1, List.headD_cons, List.tail_cons]
  rw [if_pos (by trivial)]
  rw [jParseStr_plain (show ∀ c ∈ str "exp", plainChar c by decide)]
  simp only [Option.some_bind]
  rw [skipWs_cons (by rfl)]
  simp only [List.headD_cons, List.tail_cons]
  rw [if_pos (by trivial)]
  rw [jParseVal_num (f := f) (by decide) (by decide) (by decide) (by decide)]
  simp only [Option.some_bind]
  rw [skipWs_cons (by rfl)]
  simp only [List.headD_cons, List.tail_cons]
  rw [if_neg (by decide), if_pos (by trivial)]

theorem members_email_exp (f : Nat) (acc : List (List Nat × JVal)) {email : List Nat}
    (exp : Nat) (hemail : ∀ c ∈ email, plainChar c) :
    jParseMembers (f + 3)
      (32 :: 34 :: (str "email" ++ 34 :: 58 :: 32 :: 34 ::
        (email ++ 34 :: 44 :: 32 :: 34 :: (str "exp" ++ 34 :: 58 :: 32 :: (natStr exp ++ 125 :: []))))) acc
      = some (JVal.jobj (jInsert (jInsert acc (str "email") (JVal.jstr email))
          (str "exp") (JVal.jnum exp)), []) := by
  have hs1 : skipWs (32 :: 34 :: (str "email" ++ 34 :: 58 :: 32 :: 34 ::
      (email ++ 34 :: 44 :: 32 :: 34 :: (str "exp" ++ 34 :: 58 :: 32 :: (natStr exp ++ 125 :: []))))) =
      34 :: (str "email" ++ 34 :: 58 :: 32 :: 34 ::
      (email ++ 34 :: 44 :: 32 :: 34 :: (str "exp" ++ 34 :: 58 :: 32 :: (natStr exp ++ 125 :: [])))) := by
    rw [skipWs_ws_cons (by rfl)]
    exact skipWs_cons (by rfl)
  rw [jParseMembers]
  simp only [hs1, List.headD_cons, List.tail_cons]
  rw [if_pos (by trivial)]
  rw [jParseStr_plain (show ∀ c ∈ str "email", plainChar c by decide)]
  simp only [Option.some_bind]
  rw [skipWs_cons (by rfl)]
  simp only [List.headD_cons, List.tail_cons]
  rw [if_pos (by trivial)]
  rw [jParseVal_str (f + 1) hemail]
  simp only [Option.some_bind]
  rw [skipWs_cons (by rfl)]
  simp only [List.headD_cons, List.tail_cons]
  rw [if_pos (by trivial)]
  exact members_exp f _ exp

theorem members_payload (f : Nat) {uid : Nat} {email : List Nat} {exp : Nat}
    (hemail : ∀ c ∈ email, plainChar c) :
    jParseMembers (f + 4)
      (34 :: (str "user_id" ++ 34 :: 58 :: 32 :: (natStr uid ++ 44 :: 32 :: 34 ::
        (str "email" ++ 34 :: 58 :: 32 :: 34 ::
          (email ++ 34 :: 44 :: 32 :: 34 ::
            (str "exp" ++ 34 :: 58 :: 32 :: (natStr exp ++ 125 :: []))))))) []
      = some (JVal.jobj
          (jInsert (jInsert (jInsert [] (str "user_id") (JVal.jnum uid))
            (str "email") (JVal.jstr email)) (str "exp") (JVal.jnum exp)), []) := by
  have hs1 : skipWs (34 :: (str "user_id" ++ 34 :: 58 :: 32 :: (natStr uid ++ 44 :: 32 :: 34 ::
      (str "email" ++ 34 :: 58 :: 32 :: 34 ::
        (email ++ 34 :: 44 :: 32 :: 34 ::
          (str "exp" ++ 34 :: 58 :: 32 :: (natStr exp ++ 125 :: []))))))) =
      34 :: (str "user_id" ++ 34 :: 58 :: 32 :: (natStr uid ++ 44 :: 32 :: 34 ::
      (str "email" ++ 34 :: 58 :: 32 :: 34 ::
        (email ++ 34 :: 44 :: 32 :: 34 ::
          (str "exp" ++ 34 :: 58 :: 32 :: (natStr exp ++ 125 :: [])))))) :=
    skipWs_cons (by rfl)
  rw [jParseMembers]
  simp only [hs1, List.headD_cons, List.tail_cons]
  rw [if_pos (by trivial)]
  rw [jParseStr_plain (show ∀ c ∈ str "user_id", plainChar c by decide)]
  simp only [Option.some_bind]
  rw [skipWs_cons (by rfl)]
  simp only [List.headD_cons, List.tail_cons]
  rw [if_pos (by trivial)]
  rw [jParseVal_num (f := f + 2) (by decide) (by decide) (by decide) (by decide)]
  simp only [Option.some_bind]
  rw [skipWs_cons (by rfl)]
  simp only [List.headD_cons, List.tail_cons]
  rw [if_pos (by trivial)]
  exact members_email_exp f _ exp hemail

/-- The three payload fields in serialisation order. -/
def payloadFields (uid : Nat) (email : List Nat) (exp : Nat) : List (List Nat × JVal) :=
  [(str "user_id", JVal.jnum uid), (str "email", JVal.jstr email), (str "exp", JVal.jnum exp)]

theorem jParseVal_payload (f : Nat) {uid : Nat} {email : List Nat} {exp : Nat}
    (hemail : ∀ c ∈ email, plainChar c) :
    jParseVal (f + 5)
      (123 :: 34 :: (str "user_id" ++ 34 :: 58 :: 32 :: (natStr uid ++ 44 :: 32 :: 34 ::
        (str "email" ++ 34 :: 58 :: 32 :: 34 ::
          (email ++ 34 :: 44 :: 32 :: 34 ::
            (str "exp" ++ 34 :: 58 :: 32 :: (natStr exp ++ 125 :: [])))))))
      = some (JVal.jobj (payloadFields uid email exp), []) := by
  have hs1 : skipWs (123 :: 34 :: (str "user_id" ++ 34 :: 58 :: 32 :: (natStr uid ++ 44 :: 32 :: 34 ::
      (str "email" ++ 34 :: 58 :: 32 :: 34 ::
        (email ++ 34 :: 44 :: 32 :: 34 ::
          (str "exp" ++ 34 :: 58 :: 32 :: (natStr exp ++ 125 :: []))))))) =
      123 :: 34 :: (str "user_id" ++ 34 :: 58 :: 32 :: (natStr uid ++ 44 :: 32 :: 34 ::
      (str "email" ++ 34 :: 58 :: 32 :: 34 ::
        (email ++ 34 :: 44 :: 32 :: 34 ::
          (str "exp" ++ 34 :: 58 :: 32 :: (natStr exp ++ 125 :: [])))))) :=
    skipWs_cons (by rfl)
  rw [jParseVal]
  simp only [hs1, List.headD_cons, List.tail_cons]
  rw [if_neg (by simp), if_neg (by decide), if_pos (by trivial)]
  rw [skipWs_cons (by rfl)]
  simp only [List.headD_cons]
  rw [if_neg (by decide)]
  rw [members_payload f hemail]
  rfl

theorem jsonLoads_dumpsPayload {uid : Nat} {email : List Nat} {exp : Nat}
    (hemail : ∀ c ∈ email, plainChar c) :
    jsonLoads (dumpsPayload uid email exp) = some (JVal.jobj (payloadFields uid email exp)) := by
  have l1 : str "\x7b\"user_id\": " = 123 :: 34 :: (str "user_id" ++ [34, 58, 32]) := by rfl
  have l2 : str ", \"email\": \"" = 44 :: 32 :: 34 :: (str "email" ++ [34, 58, 32, 34]) := by rfl
  have l3 : str "\", \"exp\": " = 34 :: 44 :: 32 :: 34 :: (str "exp" ++ [34, 58, 32]) := by rfl
  have l4 : str "\x7d" = [125] := by rfl
  have hshape : dumpsPayload uid email exp =
      123 :: 34 :: (str "user_id" ++ 34 :: 58 :: 32 :: (natStr uid ++ 44 :: 32 :: 34 ::
        (str "email" ++ 34 :: 58 :: 32 :: 34 ::
          (email ++ 34 :: 44 :: 32 :: 34 ::
            (str "exp" ++ 34 :: 58 :: 32 :: (natStr exp ++ 125 :: [])))))) := by
    rw [dumpsPayload, jEscStr_plain hemail, l1, l2, l3, l4]
    simp only [List.cons_append, List.append_assoc, List.nil_append, List.append_nil,
      List.singleton_append]
  rw [hshape]
  unfold jsonLoads
  have hlen7 : (str "user_id").length = 7 := by rfl
  have hlen5 : (str "email").length = 5 := by rfl
  have hlen3 : (str "exp").length = 3 := by rfl
  obtain ⟨M, hM⟩ : ∃ M, (123 :: 34 :: (str "user_id" ++ 34 :: 58 :: 32 :: (natStr uid ++ 44 :: 32 :: 34 ::
      (str "email" ++ 34 :: 58 :: 32 :: 34 ::
        (email ++ 34 :: 44 :: 32 :: 34 ::
          (str "exp" ++ 34 :: 58 :: 32 :: (natStr exp ++ 125 :: []))))))).length + 1 = M + 5 := by
    refine ⟨(natStr uid).length + (natStr exp).length + email.length + 31, ?_⟩
    simp only [List.length_cons, List.length_append, hlen7, hlen5, hlen3, List.length_nil]
    omega
  rw [hM, jParseVal_payload M hemail]
  rfl

/-! ### The token round trip: verify_jwt of create_jwt -/

/-- The header segment every issued token starts with. -/
def jwtHeader : List Nat := b64uStrip (utf8Encode headerJson)

/-- The payload segment of a token for the given claims. -/
def jwtPayload (uid : Nat) (email : List Nat) (exp : Nat) : List Nat :=
  b64uStrip (utf8Encode (dumpsPayload uid email exp))

/-- The signature segment over a header and payload segment pair. -/
def jwtSig (hd pl secret : List Nat) : List Nat :=
  b64uStrip (sha256 (utf8Encode (hd ++ [46] ++ pl ++ secret)))

theorem create_jwt_parts (uid : Nat) (email : List Nat) (m t0 : Nat) (secret : List Nat) :
    create_jwt uid email m t0 secret =
      jwtHeader ++ [46] ++ jwtPayload uid email (t0 + 60 * m) ++ [46] ++
        jwtSig jwtHeader (jwtPayload uid email (t0 + 60 * m)) secret := rfl

theorem token_regroup (A B C : List Nat) :
    A ++ [46] ++ B ++ [46] ++ C = A ++ 46 :: (B ++ 46 :: C) := by
  simp [List.append_assoc]

theorem splitOn_token {A B C : List Nat} (hA : ∀ c ∈ A, c ≠ 46) (hB : ∀ c ∈ B, c ≠ 46)
    (hC : ∀ c ∈ C, c ≠ 46) :
    splitOn 46 (A ++ [46] ++ B ++ [46] ++ C) = [A, B, C] := by
  rw [token_regroup, splitOn_append_sep hA, splitOn_append_sep hB, splitOn_no_sep hC]

theorem jwtHeader_ne_dot : ∀ c ∈ jwtHeader, c ≠ 46 := b64uStrip_ne_dot utf8Encode_lt

theorem jwtPayload_ne_dot (uid : Nat) (email : List Nat) (exp : Nat) :
    ∀ c ∈ jwtPayload uid email exp, c ≠ 46 := b64uStrip_ne_dot utf8Encode_lt

theorem jwtSig_ne_dot (hd pl secret : List Nat) : ∀ c ∈ jwtSig hd pl secret, c ≠ 46 :=
  b64uStrip_ne_dot sha256_lt

theorem dumpsPayload_ascii {uid : Nat} {email : List Nat} {exp : Nat}
    (hemail : ∀ c ∈ email, plainChar c) : ∀ c ∈ dumpsPayload uid email exp, c < 128 := by
  intro c hc
  unfold dumpsPayload at hc
  rw [jEscStr_plain hemail] at hc
  simp only [List.append_assoc, List.mem_append] at hc
  rcases hc with hc | hc | hc | hc | hc | hc | hc
  · exact (show ∀ x ∈ str "\x7b\"user_id\": ", x < 128 by decide) c hc
  · have := natStr_digits uid c hc
    omega
  · exact (show ∀ x ∈ str ", \"email\": \"", x < 128 by decide) c hc
  · have := hemail c hc
    unfold plainChar at this
    omega
  · exact (show ∀ x ∈ str "\", \"exp\": ", x < 128 by decide) c hc
  · have := natStr_digits exp c hc
    omega
  · exact (show ∀ x ∈ str "\x7d", x < 128 by decide) c hc

/-- C2: verify_jwt recovers the claims of any token create_jwt issued, at
any time before the stated 60-minute lifetime has elapsed: the same user id
and email come back in the payload, not a rejection.  Emails are restricted
to the plain characters json.dumps copies verbatim (every address
validate_email admits is of this shape). -/
theorem claim_C2_verify_of_create (uid : Nat) (email : List Nat) (t0 t : Nat) (secret : List Nat)
    (hemail : ∀ c ∈ email, plainChar c) (ht : t < t0 + 60 * 60) :
    verify_jwt (create_jwt uid email 60 t0 secret) secret t =
      some (JVal.jobj (payloadFields uid email (t0 + 60 * 60))) := by
  have hasciiP : ∀ c ∈ dumpsPayload uid email (t0 + 60 * 60), c < 128 :=
    dumpsPayload_ascii hemail
  rw [create_jwt_parts]
  unfold verify_jwt
  rw [splitOn_token jwtHeader_ne_dot (jwtPayload_ne_dot uid email (t0 + 60 * 60))
    (jwtSig_ne_dot jwtHeader (jwtPayload uid email (t0 + 60 * 60)) secret)]
  dsimp only
  rw [if_pos (show jwtSig jwtHeader (jwtPayload uid email (t0 + 60 * 60)) secret =
    b64uStrip (sha256 (utf8Encode (jwtHeader ++ [46] ++ jwtPayload uid email (t0 + 60 * 60) ++
      secret))) from rfl)]
  rw [show jwtPayload uid email (t0 + 60 * 60) =
    b64uStrip (utf8Encode (dumpsPayload uid email (t0 + 60 * 60))) from rfl]
  rw [url_decode_strip utf8Encode_lt]
  dsimp only
  unfold jsonLoadsBytes
  rw [utf8Encode_ascii hasciiP, utf8Decode_ascii hasciiP]
  rw [Option.some_bind, jsonLoads_dumpsPayload hemail]
  dsimp only
  rw [show jGetD (payloadFields uid email (t0 + 60 * 60)) (str "exp") (JVal.jnum 0) =
    JVal.jnum (t0 + 60 * 60) from rfl]
  dsimp only [jNumVal]
  rw [if_neg (by omega)]

/-! ### Byte bounds for the password hash encoding -/

theorem zipWith_xor_lt {l1 l2 : List Nat} (h1 : ∀ b ∈ l1, b < 256)
    (h2 : ∀ b ∈ l2, b < 256) :
    ∀ b ∈ l1.zipWith (fun a b => a ^^^ b) l2, b < 256 := by
  induction l1 generalizing l2 with
  | nil => intro b hb; simp at hb
  | cons x t ih =>
    intro b hb
    cases l2 with
    | nil => simp at hb
    | cons y t2 =>
      simp only [List.zipWith_cons_cons, List.mem_cons] at hb
      rcases hb with hb | hb
      · subst hb
        have hx : x < 2 ^ 8 := by
          have := h1 x (by simp)
          omega
        have hy : y < 2 ^ 8 := by
          have := h2 y (by simp)
          omega
        have := Nat.xor_lt_two_pow hx hy
        omega
      · exact ih (fun c hc => h1 c (by simp [hc])) (fun c hc => h2 c (by simp [hc])) b hb

theorem pbkdf2Go_lt (pw : List Nat) (i : Nat) (u acc : List Nat)
    (hacc : ∀ b ∈ acc, b < 256) : ∀ b ∈ pbkdf2Go pw i u acc, b < 256 := by
  induction i generalizing u acc with
  | zero => exact hacc
  | succ j ih =>
    simp only [pbkdf2Go]
    exact ih _ _ (zipWith_xor_lt hacc sha256_lt)

theorem pbkdf2_lt (pw salt : List Nat) (iters : Nat) :
    ∀ b ∈ pbkdf2HmacSha256 pw salt iters, b < 256 := by
  unfold pbkdf2HmacSha256 hmacSha256
  exact pbkdf2Go_lt _ _ _ _ sha256_lt

theorem b64encode_std_ne_dollar {bs : List Nat} (h : ∀ b ∈ bs, b < 256) :
    ∀ c ∈ b64encode b64StdAlpha bs, c ≠ 36 := by
  intro c hc
  unfold b64encode at hc
  rcases List.mem_append.mp hc with hc | hc
  · obtain ⟨s, hs, rfl⟩ := List.mem_map.mp hc
    exact std_enc_ne_dollar s (b64Sextets_lt h s hs)
  · have := List.eq_of_mem_replicate hc
    omega

/-! ### splitOn length equals separator count plus one -/

theorem splitOn_length (sep : Nat) (s : List Nat) :
    (splitOn sep s).length = s.count sep + 1 := by
  induction s with
  | nil => rfl
  | cons a t ih =>
    by_cases ha : a = sep
    · subst ha
      have heq : splitOn a (a :: t) = [] :: splitOn a t := by simp [splitOn]
      rw [heq]
      simp only [List.length_cons, ih, List.count_cons_self]
    · have heq : splitOn sep (a :: t) =
          match splitOn sep t with
          | h :: t2 => (a :: h) :: t2
          | [] => [[a]] := by simp [splitOn, ha]
      rw [heq]
      cases hsp : splitOn sep t with
      | nil => exact absurd hsp (splitOn_ne_nil t)
      | cons h2 t2 =>
        have := ih
        rw [hsp] at this
        simp only [List.length_cons] at this ⊢
        have hcc : List.count sep (a :: t) = List.count sep t := by
          simp [List.count_cons, Ne.symm ha]
        rw [hcc]
        omega

theorem list_four_cons {α : Type} (l : List α) (h : 4 ≤ l.length) :
    ∃ a b c d tl, l = a :: b :: c :: d :: tl := by
  cases l with
  | nil => simp at h
  | cons a l1 =>
    cases l1 with
    | nil => simp at h
    | cons b l2 =>
      cases l2 with
      | nil => simp at h
      | cons c l3 =>
        cases l3 with
        | nil => simp at h
        | cons d tl => exact ⟨a, b, c, d, tl, rfl⟩

/-! ### Claim theorems: credential hasher -/

/-- C4: for every password and every salt the hasher may draw (a hex string,
as secrets.token_hex produces), verify_password accepts the password against
hash_password of it: the encoding stores salt and base64 of the derived key
separated by one dollar, and verification re-derives with the stored salt. -/
theorem claim_C4_verify_of_hash (password salt : List Nat)
    (hsalt : ∀ c ∈ salt, (48 ≤ c ∧ c ≤ 57) ∨ (97 ≤ c ∧ c ≤ 102)) :
    verify_password password (hash_password salt password) = true := by
  unfold hash_password verify_password
  have hsne : ∀ c ∈ salt, c ≠ 36 := by
    intro c hc
    rcases hsalt c hc with h | h <;> omega
  have hene : ∀ c ∈ b64encode b64StdAlpha
      (pbkdf2HmacSha256 (utf8Encode password) (utf8Encode salt) 100000), c ≠ 36 :=
    b64encode_std_ne_dollar (pbkdf2_lt _ _ _)
  have hsp : splitOn 36 (salt ++ [36] ++ b64encode b64StdAlpha
      (pbkdf2HmacSha256 (utf8Encode password) (utf8Encode salt) 100000)) =
      [salt, b64encode b64StdAlpha
        (pbkdf2HmacSha256 (utf8Encode password) (utf8Encode salt) 100000)] := by
    rw [List.append_assoc, List.singleton_append, splitOn_append_sep hsne, splitOn_no_sep hene]
  rw [hsp]
  dsimp only
  simp

/-- Witness for C4 at a concrete password and salt. -/
theorem claim_C4_witness :
    (∀ c ∈ str "ab", (48 ≤ c ∧ c ≤ 57) ∨ (97 ≤ c ∧ c ≤ 102)) ∧
    verify_password (str "secret1") (hash_password (str "ab") (str "secret1")) = true :=
  ⟨by decide, claim_C4_verify_of_hash (str "secret1") (str "ab") (by decide)⟩

/-- C7: a stored hash that does not split into exactly two dollar-separated
parts makes verify_password return false; the embedding is a total function,
matching the code path that returns False before any derivation. -/
theorem claim_C7_malformed_hash (password hash_str : List Nat)
    (h : (splitOn 36 hash_str).length ≠ 2) :
    verify_password password hash_str = false := by
  unfold verify_password
  cases hsp : splitOn 36 hash_str with
  | nil => rfl
  | cons a t =>
    cases t with
    | nil => rfl
    | cons b t2 =>
      cases t2 with
      | nil =>
        exfalso
        apply h
        rw [hsp]
        rfl
      | cons c t3 => rfl

/-- Witness for C7 at a dollar-free stored hash. -/
theorem claim_C7_witness :
    (splitOn 36 (str "abc")).length ≠ 2 ∧ verify_password (str "pw") (str "abc") = false :=
  ⟨by decide, claim_C7_malformed_hash (str "pw") (str "abc") (by decide)⟩

/-! ### Claim theorems: auth service flows -/

/-- Failure of a login request, by any of the three causes the code checks:
no user row, falsy (absent or empty) password hash, or failed verification. -/
def loginFailure (req : Req) (db : DB) : Prop :=
  match db.users.find? (fun u => u.email == pyLower (pyStrip req.email)) with
  | none => True
  | some user => phFalsy user.password_hash = true ∨
      verify_password req.password (user.password_hash.getD []) = false

/-- C6: any two failed login requests, whatever the cause, produce the same
response: status 401 with the json body naming invalid email or password. -/
theorem claim_C6_login_failures_identical (e1 e2 : Env) (r1 r2 : Req) (d1 d2 : DB)
    (h1 : loginFailure r1 d1) (h2 : loginFailure r2 d2) :
    (loginFlow e1 r1 d1).1 = ⟨401, errBody (str "Invalid email or password")⟩ ∧
    (loginFlow e2 r2 d2).1 = ⟨401, errBody (str "Invalid email or password")⟩ ∧
    (loginFlow e1 r1 d1).1 = (loginFlow e2 r2 d2).1 := by
  have key : ∀ (e : Env) (r : Req) (d : DB), loginFailure r d →
      (loginFlow e r d).1 = ⟨401, errBody (str "Invalid email or password")⟩ := by
    intro e r d hf
    unfold loginFlow
    dsimp only
    unfold loginFailure at hf
    cases hfind : d.users.find? (fun u => u.email == pyLower (pyStrip r.email)) with
    | none => rfl
    | some user =>
      rw [hfind] at hf
      rcases hf with hf | hf
      · simp [hf]
      · by_cases hph : phFalsy user.password_hash
        · simp [hph]
        · simp [hph, hf]
  exact ⟨key e1 r1 d1 h1, key e2 r2 d2 h2, by rw [key e1 r1 d1 h1, key e2 r2 d2 h2]⟩

/-- Witness for C6: a login for an unknown email and a login against a
federated-only account (no password hash) get identical responses. -/
theorem claim_C6_witness :
    loginFailure (⟨str "login", str "x@y.com", str "pw", [], [], []⟩ : Req)
      (⟨1, [], []⟩ : DB) ∧
    loginFailure (⟨str "login", str "a@b.com", str "pw", [], [], []⟩ : Req)
      (⟨2, [⟨1, str "a@b.com", none, str "A"⟩], []⟩ : DB) ∧
    (loginFlow ⟨0, [], [], [], false⟩ (⟨str "login", str "x@y.com", str "pw", [], [], []⟩ : Req)
        (⟨1, [], []⟩ : DB)).1 =
      ⟨401, errBody (str "Invalid email or password")⟩ ∧
    (loginFlow ⟨0, [], [], [], false⟩ (⟨str "login", str "x@y.com", str "pw", [], [], []⟩ : Req)
        (⟨1, [], []⟩ : DB)).1 =
      (loginFlow ⟨0, [], [], [], false⟩ (⟨str "login", str "a@b.com", str "pw", [], [], []⟩ : Req)
        (⟨2, [⟨1, str "a@b.com", none, str "A"⟩], []⟩ : DB)).1 := by
  have h1 : loginFailure (⟨str "login", str "x@y.com", str "pw", [], [], []⟩ : Req)
      (⟨1, [], []⟩ : DB) := trivial
  have h2 : loginFailure (⟨str "login", str "a@b.com", str "pw", [], [], []⟩ : Req)
      (⟨2, [⟨1, str "a@b.com", none, str "A"⟩], []⟩ : DB) := Or.inl rfl
  have := claim_C6_login_failures_identical ⟨0, [], [], [], false⟩ ⟨0, [], [], [], false⟩
    ⟨str "login", str "x@y.com", str "pw", [], [], []⟩
    ⟨str "login", str "a@b.com", str "pw", [], [], []⟩
    ⟨1, [], []⟩ ⟨2, [⟨1, str "a@b.com", none, str "A"⟩], []⟩ h1 h2
  exact ⟨h1, h2, this.1, this.2.2⟩

/-- C8: a register request whose password is shorter than six characters is
answered with status 400 and leaves the database untouched; the checks run
before any insert, whatever the email validation outcome. -/
theorem claim_C8_register_short_password (env : Env) (req : Req) (db : DB)
    (hact : req.action = str "register") (hlen : req.password.length < 6) :
    (authHandler true env req db).1.statusCode = 400 ∧ (authHandler true env req db).2 = db := by
  have hdispatch : authHandler true env req db = registerFlow env req db := by
    unfold authHandler
    rw [hact]
    rfl
  rw [hdispatch]
  unfold registerFlow
  cases hv : validate_email (pyLower (pyStrip req.email)) with
  | false => simp [hv]
  | true => simp [hv, hlen]

/-- Witness for C8 at a concrete short-password register request. -/
theorem claim_C8_witness :
    (⟨str "register", str "a@b.com", str "pw", [], [], []⟩ : Req).action = str "register" ∧
    (⟨str "register", str "a@b.com", str "pw", [], [], []⟩ : Req).password.length < 6 ∧
    (authHandler true ⟨0, str "ab", str "t", [], false⟩
      (⟨str "register", str "a@b.com", str "pw", [], [], []⟩ : Req)
      (⟨1, [], []⟩ : DB)).1.statusCode = 400 ∧
    (authHandler true ⟨0, str "ab", str "t", [], false⟩
      (⟨str "register", str "a@b.com", str "pw", [], [], []⟩ : Req)
      (⟨1, [], []⟩ : DB)).2 = (⟨1, [], []⟩ : DB) := by
  have := claim_C8_register_short_password ⟨0, str "ab", str "t", [], false⟩
    ⟨str "register", str "a@b.com", str "pw", [], [], []⟩ ⟨1, [], []⟩ rfl (by decide)
  exact ⟨rfl, by decide, this.1, this.2⟩

/-- C9: a google_login request is answered with 501 when the federated-login
flag is enabled, and falls through to the generic 400 branch when the flag
is disabled. -/
theorem claim_C9_google_login (env : Env) (req : Req) (db : DB)
    (hact : req.action = str "google_login") :
    (env.googleEnabled = true →
      (authHandler true env req db).1 =
        ⟨501, errBody (str "Google OAuth not implemented yet")⟩) ∧
    (env.googleEnabled = false →
      (authHandler true env req db).1 =
        ⟨400, errBody (str "Invalid action or Google OAuth disabled")⟩) := by
  refine ⟨fun hflag => ?_, fun hflag => ?_⟩
  · unfold authHandler
    rw [hact, hflag]
    rfl
  · unfold authHandler
    rw [hact, hflag]
    rfl

/-- Witness for C9 with the flag enabled and disabled. -/
theorem claim_C9_witness :
    (⟨str "google_login", [], [], [], [], str "g"⟩ : Req).action = str "google_login" ∧
    (authHandler true ⟨0, [], [], [], true⟩ (⟨str "google_login", [], [], [], [], str "g"⟩ : Req)
      (⟨1, [], []⟩ : DB)).1 = ⟨501, errBody (str "Google OAuth not implemented yet")⟩ ∧
    (authHandler true ⟨0, [], [], [], false⟩ (⟨str "google_login", [], [], [], [], str "g"⟩ : Req)
      (⟨1, [], []⟩ : DB)).1 = ⟨400, errBody (str "Invalid action or Google OAuth disabled")⟩ :=
  ⟨rfl,
   (claim_C9_google_login ⟨0, [], [], [], true⟩ ⟨str "google_login", [], [], [], [], str "g"⟩
     ⟨1, [], []⟩ rfl).1 rfl,
   (claim_C9_google_login ⟨0, [], [], [], false⟩ ⟨str "google_login", [], [], [], [], str "g"⟩
     ⟨1, [], []⟩ rfl).2 rfl⟩

/-! ### Claim theorem: refresh rotation -/

theorem findSome?_refresh_none (users : List UserRow) (tok : List Nat) (now : Nat) :
    ∀ (l : List TokenRow), (∀ row ∈ l, row.token = tok → row.revoked = true) →
    l.findSome? (fun r =>
      if r.token == tok && !r.revoked && decide (now < r.expires_at) then
        (users.find? (fun u => u.id == r.user_id)).map (fun u => (r, u))
      else none) = none := by
  intro l
  induction l with
  | nil => intro _; rfl
  | cons a t ih =>
    intro hl
    rw [List.findSome?_cons]
    have ha : (if a.token == tok && !a.revoked && decide (now < a.expires_at) then
        (users.find? (fun u => u.id == a.user_id)).map (fun u => (a, u)) else none) = none := by
      by_cases hat : a.token = tok
      · have hrev : a.revoked = true := hl a (by simp) hat
        have hc : (a.token == tok && !a.revoked && decide (now < a.expires_at)) = false := by
          rw [hrev]
          simp
        simp [hc]
      · have hc : (a.token == tok) = false := beq_eq_false_iff_ne.mpr hat
        simp [hc]
    rw [ha]
    exact ih (fun row hm ht => hl row (by simp [hm]) ht)

theorem lookupRefresh_none {db : DB} {tok : List Nat} {now : Nat}
    (h : ∀ row ∈ db.refresh_tokens, row.token = tok → row.revoked = true) :
    lookupRefresh db tok now = none := by
  unfold lookupRefresh
  exact findSome?_refresh_none db.users tok now db.refresh_tokens h

/-- C1: redeeming a live refresh token succeeds with a new token pair, and
the very same state change marks every row holding the old token revoked and
inserts exactly one successor row, so no state exists in which the old token
is revoked without its successor; any later redemption of the same token is
answered 401 and changes nothing.  The successor draw is fresh: distinct
from the redeemed token and absent from the table. -/
theorem claim_C1_refresh_single_use (env : Env) (req : Req) (db : DB) (r : TokenRow)
    (u : UserRow)
    (hlook : lookupRefresh db req.refreshToken env.now = some (r, u))
    (hne : env.freshTok ≠ req.refreshToken)
    (hfresh : ∀ row ∈ db.refresh_tokens, row.token ≠ env.freshTok) :
    (refreshFlow env req db).1 =
      ⟨200, tokenPairBody (create_jwt r.user_id u.email 60 env.now env.secret) env.freshTok⟩ ∧
    (∀ row ∈ (refreshFlow env req db).2.refresh_tokens,
      row.token = req.refreshToken → row.revoked = true) ∧
    (⟨r.user_id, env.freshTok, env.now + thirtyDays, false⟩ : TokenRow) ∈
      (refreshFlow env req db).2.refresh_tokens ∧
    ((refreshFlow env req db).2.refresh_tokens.filter
      (fun row => row.token == env.freshTok)).length = 1 ∧
    (∀ (env2 : Env) (req2 : Req), req2.refreshToken = req.refreshToken →
      refreshFlow env2 req2 (refreshFlow env req db).2 =
        (⟨401, errBody (str "Invalid or expired refresh token")⟩, (refreshFlow env req db).2)) := by
  have hflow : refreshFlow env req db =
      (⟨200, tokenPairBody (create_jwt r.user_id u.email 60 env.now env.secret) env.freshTok⟩,
       { db with refresh_tokens :=
          (db.refresh_tokens.map (fun row =>
            if row.token == req.refreshToken then { row with revoked := true } else row)) ++
          [⟨r.user_id, env.freshTok, env.now + thirtyDays, false⟩] }) := by
    unfold refreshFlow
    rw [hlook]
  rw [hflow]
  refine ⟨rfl, ?_, ?_, ?_, ?_⟩
  · intro row hm ht
    rcases List.mem_append.mp hm with hm | hm
    · obtain ⟨orig, horig, heq⟩ := List.mem_map.mp hm
      by_cases hot : orig.token == req.refreshToken
      · rw [if_pos hot] at heq
        rw [← heq]
      · rw [if_neg hot] at heq
        rw [← heq] at ht
        exact absurd (beq_iff_eq.mpr ht) hot
    · have : row = ⟨r.user_id, env.freshTok, env.now + thirtyDays, false⟩ := by simpa using hm
      rw [this] at ht
      exact absurd (show env.freshTok = req.refreshToken from ht) hne
  · simp
  · rw [List.filter_append]
    have hmapnil : ((db.refresh_tokens.map (fun row =>
        if row.token == req.refreshToken then { row with revoked := true } else row)).filter
        (fun row => row.token == env.freshTok)) = [] := by
      rw [List.filter_eq_nil_iff]
      intro row hm
      obtain ⟨orig, horig, heq⟩ := List.mem_map.mp hm
      have htk : row.token = orig.token := by
        by_cases hot : orig.token == req.refreshToken
        · rw [if_pos hot] at heq
          rw [← heq]
        · rw [if_neg hot] at heq
          rw [← heq]
      have := hfresh orig horig
      simp [htk, this]
    rw [hmapnil]
    simp
  · intro env2 req2 hrt
    have hnone : lookupRefresh
        { db with refresh_tokens :=
          (db.refresh_tokens.map (fun row =>
            if row.token == req.refreshToken then { row with revoked := true } else row)) ++
          [⟨r.user_id, env.freshTok, env.now + thirtyDays, false⟩] }
        req2.refreshToken env2.now = none := by
      apply lookupRefresh_none
      intro row hm ht
      rw [hrt] at ht
      rcases List.mem_append.mp hm with hm | hm
      · obtain ⟨orig, horig, heq⟩ := List.mem_map.mp hm
        by_cases hot : orig.token == req.refreshToken
        · rw [if_pos hot] at heq
          rw [← heq]
        · rw [if_neg hot] at heq
          rw [← heq] at ht
          exact absurd (beq_iff_eq.mpr ht) hot
      · have : row = ⟨r.user_id, env.freshTok, env.now + thirtyDays, false⟩ := by simpa using hm
        rw [this] at ht
        exact absurd (show env.freshTok = req.refreshToken from ht) hne
    unfold refreshFlow
    rw [hnone]

/-- Concrete state for the C1 witness: one user owning one live token. -/
def wDB : DB := ⟨2, [⟨1, str "a@b.com", none, str "A"⟩], [⟨1, str "tok1", 100, false⟩]⟩

def wEnv : Env := ⟨10, str "ab", str "tok2", str "s", false⟩

def wReq : Req := ⟨str "refresh", [], [], [], str "tok1", []⟩

def wRow : TokenRow := ⟨1, str "tok1", 100, false⟩

def wUser : UserRow := ⟨1, str "a@b.com", none, str "A"⟩

/-- Witness for C1 at the concrete state: first redemption 200, replay 401. -/
theorem claim_C1_witness :
    lookupRefresh wDB wReq.refreshToken wEnv.now = some (wRow, wUser) ∧
    wEnv.freshTok ≠ wReq.refreshToken ∧
    (∀ row ∈ wDB.refresh_tokens, row.token ≠ wEnv.freshTok) ∧
    (refreshFlow wEnv wReq wDB).1 =
      ⟨200, tokenPairBody (create_jwt wRow.user_id wUser.email 60 wEnv.now wEnv.secret)
        wEnv.freshTok⟩ ∧
    refreshFlow wEnv wReq (refreshFlow wEnv wReq wDB).2 =
      (⟨401, errBody (str "Invalid or expired refresh token")⟩, (refreshFlow wEnv wReq wDB).2) := by
  have h1 : lookupRefresh wDB wReq.refreshToken wEnv.now = some (wRow, wUser) := by rfl
  have h2 : wEnv.freshTok ≠ wReq.refreshToken := by decide
  have h3 : ∀ row ∈ wDB.refresh_tokens, row.token ≠ wEnv.freshTok := by decide
  have hmain := claim_C1_refresh_single_use wEnv wReq wDB wRow wUser h1 h2 h3
  exact ⟨h1, h2, h3, hmain.1, hmain.2.2.2.2 wEnv wReq rfl⟩

set_option maxRecDepth 1000000

/-- Witness for C2 at concrete claims, a concrete secret, and a time inside
the lifetime. -/
theorem claim_C2_witness :
    (∀ c ∈ str "a@b.com", plainChar c) ∧ 1200 < 1000 + 60 * 60 ∧
    verify_jwt (create_jwt 1 (str "a@b.com") 60 1000 (str "x")) (str "x") 1200 =
      some (JVal.jobj (payloadFields 1 (str "a@b.com") (1000 + 60 * 60))) :=
  ⟨by decide, by decide,
   claim_C2_verify_of_create 1 (str "a@b.com") 1000 1200 (str "x") (by decide) (by decide)⟩

/-- C3 (amended): verify_jwt accepts a token only when the numeric value of
its exp claim is at least the current time — the code rejects on exp < now,
so a token whose exp equals the current second is accepted, not rejected. -/
theorem claim_C3_exp_at_least_now (token secret : List Nat) (now : Nat) (d : JVal)
    (h : verify_jwt token secret now = some d) :
    ∃ fields e, d = JVal.jobj fields ∧
      jNumVal (jGetD fields (str "exp") (JVal.jnum 0)) = some e ∧ (now : Int) ≤ e := by
  unfold verify_jwt at h
  rcases hsp : splitOn 46 token with _ | ⟨a, _ | ⟨b, _ | ⟨c, _ | ⟨x, tl⟩⟩⟩⟩ <;>
    rw [hsp] at h
  · simp at h
  · simp at h
  · simp at h
  · dsimp only at h
    by_cases hc : c = b64uStrip (sha256 (utf8Encode (a ++ [46] ++ b ++ secret)))
    · rw [if_pos hc] at h
      cases hdec : urlsafeB64decode (b ++ [61, 61]) with
      | none =>
        rw [hdec] at h
        simp at h
      | some bytes =>
        rw [hdec] at h
        dsimp only at h
        cases hload : jsonLoadsBytes bytes with
        | none =>
          rw [hload] at h
          simp at h
        | some v =>
          rw [hload] at h
          cases v with
          | jobj fields =>
            dsimp only at h
            cases hnum : jNumVal (jGetD fields (str "exp") (JVal.jnum 0)) with
            | none =>
              rw [hnum] at h
              simp at h
            | some e =>
              rw [hnum] at h
              dsimp only at h
              by_cases hlt : e < (now : Int)
              · rw [if_pos hlt] at h
                simp at h
              · rw [if_neg hlt] at h
                simp at h
                exact ⟨fields, e, h.symm, hnum, by omega⟩
          | jnull => simp at h
          | jbool b2 => simp at h
          | jnum n2 => simp at h
          | jstr s2 => simp at h
          | jarr xs => simp at h
    · rw [if_neg hc] at h
      simp at h
  · simp at h

/-- Counterexample to C3 as stated: this token carries exp = 1000 + 60 * 60
and a valid signature, and at current time exactly 1000 + 60 * 60 (so exp is
not strictly in the future) verify_jwt accepts it instead of rejecting. -/
theorem claim_C3_counterexample :
    verify_jwt (create_jwt 1 (str "a@b.com") 60 1000 (str "default-secret-key"))
      (str "default-secret-key") (1000 + 60 * 60) =
      some (JVal.jobj (payloadFields 1 (str "a@b.com") (1000 + 60 * 60))) := by
  rfl

/-- Witness for the amended C3 at a concretely accepted token. -/
theorem claim_C3_witness :
    verify_jwt (create_jwt 1 (str "a@b.com") 60 1000 (str "x")) (str "x") 1200 =
      some (JVal.jobj (payloadFields 1 (str "a@b.com") 4600)) ∧
    (∃ fields e, (JVal.jobj (payloadFields 1 (str "a@b.com") 4600) : JVal) = JVal.jobj fields ∧
      jNumVal (jGetD fields (str "exp") (JVal.jnum 0)) = some e ∧ ((1200 : Nat) : Int) ≤ e) := by
  have h : verify_jwt (create_jwt 1 (str "a@b.com") 60 1000 (str "x")) (str "x") 1200 =
      some (JVal.jobj (payloadFields 1 (str "a@b.com") 4600)) := by rfl
  exact ⟨h, claim_C3_exp_at_least_now _ _ _ _ h⟩

/-- C10: verify_jwt is a total function into an optional claims object, and
a payload that decodes to a JSON object without an exp member is always
rejected: the absent claim defaults to 0, which is below any positive
current time. -/
theorem claim_C10_no_exp_rejected (Hd P S secret : List Nat) (now : Nat)
    (fields : List (List Nat × JVal))
    (hHd : ∀ c ∈ Hd, c ≠ 46) (hP : ∀ c ∈ P, c ≠ 46) (hS : ∀ c ∈ S, c ≠ 46)
    (hnow : 1 ≤ now)
    (hparse : (urlsafeB64decode (P ++ [61, 61])).bind jsonLoadsBytes =
      some (JVal.jobj fields))
    (hnoexp : fields.find? (fun f => f.1 == str "exp") = none) :
    verify_jwt (Hd ++ [46] ++ P ++ [46] ++ S) secret now = none := by
  unfold verify_jwt
  rw [splitOn_token hHd hP hS]
  dsimp only
  by_cases hsig : S = b64uStrip (sha256 (utf8Encode (Hd ++ [46] ++ P ++ secret)))
  · rw [if_pos hsig]
    cases hdec : urlsafeB64decode (P ++ [61, 61]) with
    | none => rfl
    | some bytes =>
      rw [hdec] at hparse
      simp only [Option.some_bind] at hparse
      dsimp only
      rw [hparse]
      dsimp only
      have hget : jGetD fields (str "exp") (JVal.jnum 0) = JVal.jnum 0 := by
        unfold jGetD
        rw [hnoexp]
      rw [hget]
      dsimp only [jNumVal]
      rw [if_pos (by omega)]
  · rw [if_neg hsig]

/-- Concrete tampered-free payload without an exp member for the C10
witness. -/
def wP10 : List Nat := b64uStrip (utf8Encode (str "\x7b\"a\": 1\x7d"))

/-- Witness for C10: a well-signed or ill-signed token whose payload is an
object with no exp claim is rejected. -/
theorem claim_C10_witness :
    (∀ c ∈ str "h", c ≠ 46) ∧ (∀ c ∈ wP10, c ≠ 46) ∧ (∀ c ∈ str "s", c ≠ 46) ∧
    (1 ≤ 5) ∧
    (urlsafeB64decode (wP10 ++ [61, 61])).bind jsonLoadsBytes =
      some (JVal.jobj [(str "a", JVal.jnum 1)]) ∧
    ([(str "a", JVal.jnum 1)].find? (fun f => f.1 == str "exp") = none) ∧
    verify_jwt (str "h" ++ [46] ++ wP10 ++ [46] ++ str "s") (str "x") 5 = none :=
  ⟨by decide, by decide, by decide, by decide, by rfl, by rfl,
   claim_C10_no_exp_rejected (str "h") wP10 (str "s") (str "x") 5
     [(str "a", JVal.jnum 1)] (by decide) (by decide) (by decide) (by decide)
     (by rfl) (by rfl)⟩

/-! ### Claim theorem: tamper rejection -/

theorem splitOn_token_len4 {A B C : List Nat} (hA : ∀ c ∈ A, c ≠ 46)
    (hC : ∀ c ∈ C, c ≠ 46) (hB : 46 ∈ B) :
    4 ≤ (splitOn 46 (A ++ [46] ++ B ++ [46] ++ C)).length := by
  rw [splitOn_length]
  have hA0 : A.count 46 = 0 := List.count_eq_zero.mpr (fun hm => hA 46 hm rfl)
  have hC0 : C.count 46 = 0 := List.count_eq_zero.mpr (fun hm => hC 46 hm rfl)
  have hB1 : 1 ≤ B.count 46 := by
    by_cases hb0 : B.count 46 = 0
    · exact absurd hB (List.count_eq_zero.mp hb0)
    · omega
  have h1 : ([46] : List Nat).count 46 = 1 := by decide
  simp only [List.count_append, hA0, hC0, h1]
  omega

theorem splitOn_token_len4R {A B C : List Nat} (hA : ∀ c ∈ A, c ≠ 46)
    (hB : ∀ c ∈ B, c ≠ 46) (hC : 46 ∈ C) :
    4 ≤ (splitOn 46 (A ++ [46] ++ B ++ [46] ++ C)).length := by
  rw [splitOn_length]
  have hA0 : A.count 46 = 0 := List.count_eq_zero.mpr (fun hm => hA 46 hm rfl)
  have hB0 : B.count 46 = 0 := List.count_eq_zero.mpr (fun hm => hB 46 hm rfl)
  have hC1 : 1 ≤ C.count 46 := by
    by_cases hc0 : C.count 46 = 0
    · exact absurd hC (List.count_eq_zero.mp hc0)
    · omega
  have h1 : ([46] : List Nat).count 46 = 1 := by decide
  simp only [List.count_append, hA0, hB0, h1]
  omega

theorem verify_jwt_none_of_len4 (token secret : List Nat) (now : Nat)
    (h : 4 ≤ (splitOn 46 token).length) : verify_jwt token secret now = none := by
  obtain ⟨a, b, c, d, tl, hsp⟩ := list_four_cons _ h
  unfold verify_jwt
  rw [hsp]

/-- C5: a token issued by create_jwt splits into the three segments below,
and replacing the payload segment by anything whose signing input hashes
differently, or replacing the signature segment by any other string, yields
a token verify_jwt rejects.  The hash-difference hypothesis is the explicit
form of SHA-256 collision freedom between the two signing inputs, which any
single-byte alteration exhibits concretely. -/
theorem claim_C5_tamper_rejected (uid : Nat) (email : List Nat) (t0 t : Nat)
    (secret P2 S2 : List Nat) :
    create_jwt uid email 60 t0 secret =
      jwtHeader ++ [46] ++ jwtPayload uid email (t0 + 60 * 60) ++ [46] ++
        jwtSig jwtHeader (jwtPayload uid email (t0 + 60 * 60)) secret ∧
    (sha256 (utf8Encode (jwtHeader ++ [46] ++ P2 ++ secret)) ≠
        sha256 (utf8Encode (jwtHeader ++ [46] ++ jwtPayload uid email (t0 + 60 * 60) ++
          secret)) →
      verify_jwt (jwtHeader ++ [46] ++ P2 ++ [46] ++
        jwtSig jwtHeader (jwtPayload uid email (t0 + 60 * 60)) secret) secret t = none) ∧
    (S2 ≠ jwtSig jwtHeader (jwtPayload uid email (t0 + 60 * 60)) secret →
      verify_jwt (jwtHeader ++ [46] ++ jwtPayload uid email (t0 + 60 * 60) ++ [46] ++ S2)
        secret t = none) := by
  refine ⟨create_jwt_parts uid email 60 t0 secret, fun hhash => ?_, fun hsig => ?_⟩
  · by_cases hdot : ∀ c ∈ P2, c ≠ 46
    · unfold verify_jwt
      rw [splitOn_token jwtHeader_ne_dot hdot (jwtSig_ne_dot _ _ _)]
      dsimp only
      rw [if_neg (show ¬(jwtSig jwtHeader (jwtPayload uid email (t0 + 60 * 60)) secret =
          b64uStrip (sha256 (utf8Encode (jwtHeader ++ [46] ++ P2 ++ secret)))) from ?_)]
      intro heq
      have := b64uStrip_inj sha256_lt sha256_lt heq
      exact hhash this.symm
    · push_neg at hdot
      obtain ⟨c46, hm, hc⟩ := hdot
      rw [hc] at hm
      exact verify_jwt_none_of_len4 _ _ _
        (splitOn_token_len4 jwtHeader_ne_dot (jwtSig_ne_dot _ _ _) hm)
  · by_cases hdot : ∀ c ∈ S2, c ≠ 46
    · unfold verify_jwt
      rw [splitOn_token jwtHeader_ne_dot
        (jwtPayload_ne_dot uid email (t0 + 60 * 60)) hdot]
      dsimp only
      have hsigeq : b64uStrip (sha256 (utf8Encode (jwtHeader ++ [46] ++
          jwtPayload uid email (t0 + 60 * 60) ++ secret))) =
          jwtSig jwtHeader (jwtPayload uid email (t0 + 60 * 60)) secret := rfl
      rw [hsigeq, if_neg hsig]
    · push_neg at hdot
      obtain ⟨c46, hm, hc⟩ := hdot
      rw [hc] at hm
      exact verify_jwt_none_of_len4 _ _ _
        (splitOn_token_len4R jwtHeader_ne_dot
          (jwtPayload_ne_dot uid email (t0 + 60 * 60)) hm)

/-- Payload segment of the concrete witness token with its first byte
changed. -/
def wP2 : List Nat := 65 :: (jwtPayload 1 (str "a@b.com") (1000 + 60 * 60)).tail

/-- Signature segment of the concrete witness token with its first byte
changed. -/
def wS2 : List Nat :=
  65 :: (jwtSig jwtHeader (jwtPayload 1 (str "a@b.com") (1000 + 60 * 60)) (str "x")).tail

/-- Witness for C5: flipping the first byte of the payload or of the
signature of a concrete issued token makes verify_jwt reject it. -/
theorem claim_C5_witness :
    sha256 (utf8Encode (jwtHeader ++ [46] ++ wP2 ++ str "x")) ≠
      sha256 (utf8Encode (jwtHeader ++ [46] ++
        jwtPayload 1 (str "a@b.com") (1000 + 60 * 60) ++ str "x")) ∧
    wS2 ≠ jwtSig jwtHeader (jwtPayload 1 (str "a@b.com") (1000 + 60 * 60)) (str "x") ∧
    verify_jwt (jwtHeader ++ [46] ++ wP2 ++ [46] ++
      jwtSig jwtHeader (jwtPayload 1 (str "a@b.com") (1000 + 60 * 60)) (str "x"))
      (str "x") 1200 = none ∧
    verify_jwt (jwtHeader ++ [46] ++ jwtPayload 1 (str "a@b.com") (1000 + 60 * 60) ++
      [46] ++ wS2) (str "x") 1200 = none := by
  have h1 : sha256 (utf8Encode (jwtHeader ++ [46] ++ wP2 ++ str "x")) ≠
      sha256 (utf8Encode (jwtHeader ++ [46] ++
        jwtPayload 1 (str "a@b.com") (1000 + 60 * 60) ++ str "x")) := by decide
  have h2 : wS2 ≠ jwtSig jwtHeader (jwtPayload 1 (str "a@b.com") (1000 + 60 * 60))
      (str "x") := by decide
  have hmain := claim_C5_tamper_rejected 1 (str "a@b.com") 1000 1200 (str "x") wP2 wS2
  exact ⟨h1, h2, hmain.2.1 h1, hmain.2.2 h2⟩
